import Mathlib

/-
  Verification of the uC compiler front end (ucc): a shallow embedding of
  src/ucc/ast.py, src/ucc/parser.py and src/ucc/type_checking.py.

  Modelling conventions:
  * AST nodes (ast.py) become one inductive `Node`; field names follow the
    Python `__slots__`.  Source coordinates (`coord`) are carried only for
    diagnostics in the Python code and influence no behaviour modelled here,
    so they are omitted.
  * Python runtime values that flow through the checking visitor (strings,
    `None`, AST nodes, lists of nodes) become `PyVal`.
  * Python exceptions (AssertionError, AttributeError, KeyError, NameError,
    TypeError, UnboundLocalError, IndexError, RecursionError) become `Err`;
    fallible code returns `Except Err`.
  * `Cast.type` is the one attribute the checker mutates; at construction it
    holds a `Type` node but `visit_Cast` may overwrite it with a string (the
    operand's `type` attribute).  It is modelled as a pair of options
    (`tyNode`, `tyStr`) of which at most one is `some`; both `none` encodes
    the Python value `None`.
-/

namespace ucc

set_option maxHeartbeats 1000000
set_option maxRecDepth 8000

/-- AST node model, one constructor per class of ast.py. -/
inductive Node where
  | program (gdecls : List Node)
  | globalDecl (decls : List Node)
  | decl (name : Option String) (type : Option Node) (init : Option Node)
  | varDecl (name : Option Node) (type : Option Node)
  | arrayDecl (type : Option Node) (dim : Option Node)
  | funcDecl (args : Option Node) (type : Option Node)
  | funcDef (decl : Option Node) (param_decls : List Node) (body : Node)
  | typeNode (types : Option (List String))
  | constant (type : String) (value : String)
  | id (name : String)
  | binaryOp (op : String) (lvalue : Node) (rvalue : Node)
  | unaryOp (op : String) (expr : Node)
  | assignment (op : String) (lvalue : Node) (rvalue : Node)
  | cast (tyNode : Option Node) (tyStr : Option String) (expr : Node)
  | exprList (exprs : List Node)
  | funcCall (name : Node) (args : Option Node)
  | arrayRef (name : Node) (subscript : Node)
  | compound (block_items : List Node)
  | ifStmt (cond : Node) (iftrue : Node) (iffalse : Option Node)
  | whileStmt (cond : Node) (stmt : Node)
  | forStmt (init : Option Node) (cond : Option Node) (next : Option Node) (stmt : Node)
  | declList (decls : List Node)
  | emptyStatement
  | assertStmt (expr : Node)
  | printStmt (expr : Option Node)
  | readStmt (expr : Option Node)
  | initList (exprs : Option (List Node))

/-- A Python runtime value as it flows through the visitor:
`None`, a string, an AST node, or a list of nodes. -/
inductive PyVal where
  | none
  | str (s : String)
  | node (n : Node)
  | nodes (ns : List Node)

/-- Python exceptions raised by the embedded code.  `outOfFuel` is the
modelling artefact standing for exceeding Python's recursion limit. -/
inductive Err where
  | assertionError (msg : String)
  | attributeError (attr : String)
  | keyError
  | nameError (n : String)
  | typeError
  | unboundLocalError (n : String)
  | indexError
  | recursionError
  | outOfFuel
  | unmodelled
deriving DecidableEq

/-- Python truthiness for the values above (`assert x` checks it). -/
def pyTruthy : PyVal → Bool
  | PyVal.none => false
  | PyVal.str s => !(s == "")
  | PyVal.node _ => true
  | PyVal.nodes ns => !ns.isEmpty

/-- Python `==` on the values above.  Strings compare by value and
`None == None` holds.  Two AST nodes compare by object identity in Python;
every comparison performed by the checker compares results of distinct
constructions, hence distinct objects, so node/node (and list/list)
comparisons are `false` here. -/
def pyEq : PyVal → PyVal → Bool
  | PyVal.none, PyVal.none => true
  | PyVal.str a, PyVal.str b => a == b
  | _, _ => false

/-- Python list indexing: a negative index counts from the end; an index out
of range raises IndexError (encoded as `Option.none`). -/
def pyIdx (len : Nat) (i : Int) : Option Nat :=
  if 0 ≤ i then (if i < (len : Int) then Option.some i.toNat else Option.none)
  else (if -i ≤ (len : Int) then Option.some (len - (-i).toNat) else Option.none)

/-- One scope frame: the Python dict mapping names to values, as an ordered
association list with at most one entry per key. -/
abbrev Frame := List (PyVal × PyVal)

/-- `frame[k]` as `dict.get`: the stored value, if any. -/
def frameGet (fr : Frame) (k : PyVal) : Option PyVal :=
  (fr.find? (fun p => pyEq p.1 k)).map (fun p => p.2)

/-- `frame[k] = v`: replace the entry in place, or append a new one. -/
def frameSet (fr : Frame) (k v : PyVal) : Frame :=
  if fr.any (fun p => pyEq p.1 k) then
    fr.map (fun p => if pyEq p.1 k then (k, v) else p)
  else fr ++ [(k, v)]

/-- The scoped symbol table of type_checking.py: `scope` is the integer
index of the innermost frame (initially -1) and `symtabs` the Python list
of frames (index 0 first, new frames appended at the end). -/
structure SymbolTable where
  scope : Int
  symtabs : List Frame

/-- The loop `for i in range(self.scope, -1, -1)` of `lookup`, walking the
frame indices from `i` down to 0; `symtabs[i]` raises IndexError when the
index is past the end of the list. -/
def lookupAux (symtabs : List Frame) (a : PyVal) : Nat → Except Err PyVal
  | 0 =>
    match symtabs.get? 0 with
    | Option.none => Except.error Err.indexError
    | Option.some fr =>
      match frameGet fr a with
      | Option.some v => Except.ok v
      | Option.none => Except.ok PyVal.none
  | j+1 =>
    match symtabs.get? (j+1) with
    | Option.none => Except.error Err.indexError
    | Option.some fr =>
      match frameGet fr a with
      | Option.some v => Except.ok v
      | Option.none => lookupAux symtabs a j

/-- `SymbolTable.lookup`: search innermost-to-outermost, first match wins;
an exhausted (or initially empty) range returns `None`. -/
def SymbolTable.lookup (st : SymbolTable) (a : PyVal) : Except Err PyVal :=
  if st.scope < 0 then Except.ok PyVal.none
  else lookupAux st.symtabs a st.scope.toNat

/-- `SymbolTable.put`: bind in the frame `symtabs[scope]` (Python list
indexing, so a negative `scope` counts from the end). -/
def SymbolTable.put (st : SymbolTable) (a v : PyVal) : Except Err SymbolTable :=
  match pyIdx st.symtabs.length st.scope with
  | Option.none => Except.error Err.indexError
  | Option.some i =>
    Except.ok ⟨st.scope, st.symtabs.set i (frameSet (st.symtabs.getD i []) a v)⟩

/-- `SymbolTable.begin_scope`: increment `scope` and append an empty frame. -/
def SymbolTable.begin_scope (st : SymbolTable) : SymbolTable :=
  ⟨st.scope + 1, st.symtabs ++ [[]]⟩

/-- `SymbolTable.end_scope`: `symtabs.pop()` (IndexError on an empty list)
then decrement `scope`. -/
def SymbolTable.end_scope (st : SymbolTable) : Except Err SymbolTable :=
  if st.symtabs.isEmpty then Except.error Err.indexError
  else Except.ok ⟨st.scope - 1, st.symtabs.dropLast⟩

/-- A uC type descriptor (class `uCType`): a name and the four operator
sets.  Python sets become lists; only membership is ever asked of them. -/
structure uCType where
  typename : String
  unary_ops : List String
  binary_ops : List String
  rel_ops : List String
  assign_ops : List String

def VoidType : uCType := ⟨"void", [], [], [], []⟩

def IntType : uCType :=
  ⟨"int",
   ["-", "+", "--", "++", "p--", "p++", "*", "&"],
   ["+", "-", "*", "/", "%"],
   ["==", "!=", "<", ">", "<=", ">="],
   ["=", "+=", "-=", "*=", "/=", "%="]⟩

def FloatType : uCType :=
  ⟨"float",
   ["-", "+", "--", "++", "p--", "p++", "*", "&"],
   ["+", "-", "*", "/", "%"],
   ["==", "!=", "<", ">", "<=", ">="],
   ["=", "+=", "-=", "*=", "/=", "%="]⟩

def CharType : uCType :=
  ⟨"char",
   ["-", "+", "--", "++", "p--", "p++", "*", "&"],
   ["+", "-", "*", "/", "%"],
   ["==", "!=", "<", ">", "<=", ">="],
   ["=", "+=", "-=", "*=", "/=", "%="]⟩

def StringType : uCType := ⟨"string", ["+", "&"], [], ["==", "!="], []⟩

def ArrayType : uCType := ⟨"array", ["*", "&"], [], ["==", "!="], []⟩

def type_table : List (String × uCType) :=
  [("void", VoidType), ("int", IntType), ("float", FloatType),
   ("char", CharType), ("string", StringType), ("array", ArrayType)]

/-- `type_table[v]`: dict lookup keyed by the six type names; any other
value (including `None`) raises KeyError. -/
def type_table_get (v : PyVal) : Except Err uCType :=
  match v with
  | PyVal.str s =>
    match type_table.find? (fun p => p.1 == s) with
    | Option.some p => Except.ok p.2
    | Option.none => Except.error Err.keyError
  | _ => Except.error Err.keyError

/-- `isinstance(n, ast.VarDecl)`. -/
def isVarDecl : Node → Bool
  | Node.varDecl _ _ => true
  | _ => false

/-- `isinstance(n, ast.ArrayDecl)`. -/
def isArrayDecl : Node → Bool
  | Node.arrayDecl _ _ => true
  | _ => false

/-- `isinstance(n, ast.FuncDecl)`. -/
def isFuncDecl : Node → Bool
  | Node.funcDecl _ _ => true
  | _ => false

/-- `isinstance(n, ast.ID)`. -/
def isID : Node → Bool
  | Node.id _ => true
  | _ => false

/-- `isinstance(n, ast.Constant)`. -/
def isConstant : Node → Bool
  | Node.constant _ _ => true
  | _ => false

/-- `isinstance(n, ast.ArrayRef)`. -/
def isArrayRef : Node → Bool
  | Node.arrayRef _ _ => true
  | _ => false

/-
  The declarator-composition helpers of parser.py.

  In ast.py the classes with a `type` slot are Decl, VarDecl, ArrayDecl,
  FuncDecl, Constant (a string) and Cast; reading `.type` on any other node
  (in particular on an ID, on `None`, or on a string) raises AttributeError.
-/

/-- The walk of `_type_modify_decl` lines 102-104
(`while modifier_tail.type: modifier_tail = modifier_tail.type`), performed
for its exceptions only: it follows `.type` links while they are truthy, and
raises AttributeError if the walk steps into a string or reaches a node
without a `type` slot. -/
def tailOk : Node → Except Err Unit
  | Node.decl _ (Option.some n) _ => tailOk n
  | Node.decl _ Option.none _ => Except.ok ()
  | Node.varDecl _ (Option.some n) => tailOk n
  | Node.varDecl _ Option.none => Except.ok ()
  | Node.arrayDecl (Option.some n) _ => tailOk n
  | Node.arrayDecl Option.none _ => Except.ok ()
  | Node.funcDecl _ (Option.some n) => tailOk n
  | Node.funcDecl _ Option.none => Except.ok ()
  | Node.constant ty _ =>
    -- the `type` slot holds a string: falsy "" stops the walk, a nonempty
    -- string becomes `modifier_tail` and the next `.type` access raises
    if ty == "" then Except.ok () else Except.error (Err.attributeError "type")
  | Node.cast (Option.some n) _ _ => tailOk n
  | Node.cast Option.none (Option.some s) _ =>
    if s == "" then Except.ok () else Except.error (Err.attributeError "type")
  | Node.cast Option.none Option.none _ => Except.ok ()
  | _ => Except.error (Err.attributeError "type")

/-- The same walk followed by `modifier_tail.type = x`: the returned node is
the modifier chain with its tail's type link now pointing at `x`.  The two
string-slot stop cases (a Constant or string-holding Cast with an empty
`type`) are where Python would store the node into a string-typed slot; no
declarator chain ever contains such a node, and this typed model maps the
case to `Err.unmodelled`. -/
def setTailType : Node → Node → Except Err Node
  | Node.decl nm (Option.some n) ini, x => do
    let n' ← setTailType n x
    Except.ok (Node.decl nm (Option.some n') ini)
  | Node.decl nm Option.none ini, x => Except.ok (Node.decl nm (Option.some x) ini)
  | Node.varDecl nm (Option.some n), x => do
    let n' ← setTailType n x
    Except.ok (Node.varDecl nm (Option.some n'))
  | Node.varDecl nm Option.none, x => Except.ok (Node.varDecl nm (Option.some x))
  | Node.arrayDecl (Option.some n) dim, x => do
    let n' ← setTailType n x
    Except.ok (Node.arrayDecl (Option.some n') dim)
  | Node.arrayDecl Option.none dim, x => Except.ok (Node.arrayDecl (Option.some x) dim)
  | Node.funcDecl args (Option.some n), x => do
    let n' ← setTailType n x
    Except.ok (Node.funcDecl args (Option.some n'))
  | Node.funcDecl args Option.none, x => Except.ok (Node.funcDecl args (Option.some x))
  | Node.constant ty _, _ =>
    if ty == "" then Except.error Err.unmodelled else Except.error (Err.attributeError "type")
  | Node.cast (Option.some n) tyS e, x => do
    let n' ← setTailType n x
    Except.ok (Node.cast (Option.some n') tyS e)
  | Node.cast Option.none (Option.some s) _, _ =>
    if s == "" then Except.error Err.unmodelled else Except.error (Err.attributeError "type")
  | Node.cast Option.none Option.none _, _ => Except.error Err.unmodelled
  | _, _ => Except.error (Err.attributeError "type")

/-- The else-branch of `_type_modify_decl` lines 114-121: walk
`decl_tail` down the declarator while `decl_tail.type` is not a VarDecl
(AttributeError if the walk reaches `None`, a string or a node without a
`type` slot), then splice: `modifier_tail.type = decl_tail.type;
decl_tail.type = modifier_head`.  Returns the updated declarator. -/
def spliceAt : Node → Node → Except Err Node
  | Node.decl nm (Option.some n) ini, modifier =>
    if isVarDecl n then do
      let m' ← setTailType modifier n
      Except.ok (Node.decl nm (Option.some m') ini)
    else do
      let n' ← spliceAt n modifier
      Except.ok (Node.decl nm (Option.some n') ini)
  | Node.varDecl nm (Option.some n), modifier =>
    if isVarDecl n then do
      let m' ← setTailType modifier n
      Except.ok (Node.varDecl nm (Option.some m'))
    else do
      let n' ← spliceAt n modifier
      Except.ok (Node.varDecl nm (Option.some n'))
  | Node.arrayDecl (Option.some n) dim, modifier =>
    if isVarDecl n then do
      let m' ← setTailType modifier n
      Except.ok (Node.arrayDecl (Option.some m') dim)
    else do
      let n' ← spliceAt n modifier
      Except.ok (Node.arrayDecl (Option.some n') dim)
  | Node.funcDecl args (Option.some n), modifier =>
    if isVarDecl n then do
      let m' ← setTailType modifier n
      Except.ok (Node.funcDecl args (Option.some m'))
    else do
      let n' ← spliceAt n modifier
      Except.ok (Node.funcDecl args (Option.some n'))
  | Node.cast (Option.some n) tyS e, modifier =>
    if isVarDecl n then do
      let m' ← setTailType modifier n
      Except.ok (Node.cast (Option.some m') tyS e)
    else do
      let n' ← spliceAt n modifier
      Except.ok (Node.cast (Option.some n') tyS e)
  | _, _ => Except.error (Err.attributeError "type")

/-- `UCParser._type_modify_decl`: walk the modifier's tail (lines 99-104),
then either tack the modifier onto a bare VarDecl or splice it into the
declarator chain just above the chain's VarDecl leaf. -/
def type_modify_decl (decl modifier : Node) : Except Err Node := do
  let _ ← tailOk modifier
  if isVarDecl decl then setTailType modifier decl
  else spliceAt decl modifier

/-- `p_identifier`: `identifier : ID` builds `ast.ID(p[1])`. -/
def p_identifier (s : String) : Node := Node.id s

/-- `p_direct_declarator_3`: builds `ast.ArrayDecl(None, p[3])` and splices
it onto the declarator with `_type_modify_decl`. -/
def p_direct_declarator_3 (p1 : Node) (dim : Option Node) : Except Err Node :=
  type_modify_decl p1 (Node.arrayDecl Option.none dim)

/-- `p_direct_declarator_4`: builds `ast.FuncDecl(p[3], None)` and splices
it onto the declarator with `_type_modify_decl`. -/
def p_direct_declarator_4 (p1 : Node) (args : Option Node) : Except Err Node :=
  type_modify_decl p1 (Node.funcDecl args Option.none)

/-- The loop of `_fix_decl_name_type` lines 43-45
(`type = decl; while not isinstance(type, ast.VarDecl): type = type.type`):
follow `.type` links until a VarDecl is reached; AttributeError when the
walk reaches `None`, a string, or a node without a `type` slot. -/
def reachVarDecl : Node → Except Err Node
  | Node.varDecl nm ty => Except.ok (Node.varDecl nm ty)
  | Node.decl _ (Option.some n) _ => reachVarDecl n
  | Node.arrayDecl (Option.some n) _ => reachVarDecl n
  | Node.funcDecl _ (Option.some n) => reachVarDecl n
  | Node.cast (Option.some n) _ _ => reachVarDecl n
  | _ => Except.error (Err.attributeError "type")

/-- `UCParser._fix_decl_name_type`: walk to the declarator's VarDecl leaf,
then execute line 47, `decl.name = type.declname`.  Class VarDecl declares
the slots `name`, `type`, `coord` and no `declname`, so this access raises
AttributeError on every declaration; the specifier handling below it
(multiple-type check, int default for FuncDecl declarators, the
"Missing type in declaration" error, lines 49-74) is unreachable. -/
def fix_decl_name_type (decl : Node) (typename : List Node) : Except Err Node := do
  let _ ← reachVarDecl decl
  Except.error (Err.attributeError "declname")

/-- `ExprList.concat_exprs(expr_base, expr)`: if the base is not already an
ExprList it is first wrapped into one (reading `expr_base.coord`, an
AttributeError when the base is `None`); the new operand is appended.  The
method body ends without a `return` statement, so its Python return value
is always `None`: the result pairs that return value with the list object
the method built or extended. -/
def concat_exprs (expr_base : Option Node) (expr : Node) :
    Except Err (Option Node × Node) :=
  match expr_base with
  | Option.none => Except.error (Err.attributeError "coord")
  | Option.some (Node.exprList es) =>
    Except.ok (Option.none, Node.exprList (es ++ [expr]))
  | Option.some b => Except.ok (Option.none, Node.exprList [b, expr])

/-- `p_expression`, comma production: `p[0] = ast.ExprList.concat_exprs(p[1], p[3])`,
i.e. the production's semantic value is the method's return value. -/
def p_expression_comma (p1 : Option Node) (p3 : Node) : Except Err (Option Node) := do
  let r ← concat_exprs p1 p3
  Except.ok r.1

/-- A postfix declarator modifier as the two direct-declarator productions
build it: an `ArrayDecl(None, dim)` or a `FuncDecl(args, None)`. -/
inductive DeclMod where
  | arr (dim : Option Node)
  | func (args : Option Node)

/-- The fresh modifier node handed to `_type_modify_decl`. -/
def freshMod : DeclMod → Node
  | DeclMod.arr dim => Node.arrayDecl Option.none dim
  | DeclMod.func args => Node.funcDecl args Option.none

/-- The modifier node with its type link pointing at `inner`. -/
def applyMod : DeclMod → Node → Node
  | DeclMod.arr dim, inner => Node.arrayDecl (Option.some inner) dim
  | DeclMod.func args, inner => Node.funcDecl args (Option.some inner)

/-- The type chain whose outer-to-inner modifier reading is `ms`, ending at
`leaf`. -/
def modChain : List DeclMod → Node → Node
  | [], leaf => leaf
  | m :: ms, leaf => applyMod m (modChain ms leaf)

/-- Apply a sequence of postfix modifiers to a declarator the way repeated
reductions of the direct-declarator productions do, left to right. -/
def buildDeclarator (leaf : Node) (ms : List DeclMod) : Except Err Node :=
  List.foldlM (fun d m => type_modify_decl d (freshMod m)) leaf ms

/-- Read a declarator chain from its outer head inward: the list of
modifiers in head-first order, and the leaf they end at. -/
def readMods : Node → List DeclMod × Node
  | Node.arrayDecl (Option.some inner) dim =>
    let r := readMods inner
    (DeclMod.arr dim :: r.1, r.2)
  | Node.funcDecl args (Option.some inner) =>
    let r := readMods inner
    (DeclMod.func args :: r.1, r.2)
  | n => (([] : List DeclMod), n)

/-
  The checking visitor of type_checking.py.
-/

/-- The mutable attributes of the checking `Visitor` object, plus two ghost
counters instrumenting how often the visitor called `begin_scope` and
`end_scope`.  (`self.check_array` is initialized to 0 and never read or
written again, so it is omitted.)  `fmap` and `amap` are the Python dicts
`self.fmap` / `self.amap` as ordered association lists; `amap` values are
the tuples `(array_type, dims)`. -/
structure CheckerState where
  fmap : List (PyVal × PyVal)
  amap : List (PyVal × (PyVal × List PyVal))
  symtab : SymbolTable
  begin_calls : Nat
  end_calls : Nat

/-- `self.symtab.begin_scope()` as called by the visitor (counted). -/
def CheckerState.beginScope (s : CheckerState) : CheckerState :=
  ⟨s.fmap, s.amap, s.symtab.begin_scope, s.begin_calls + 1, s.end_calls⟩

/-- `self.symtab.end_scope()` as called by the visitor (counted). -/
def CheckerState.endScope (s : CheckerState) : Except Err CheckerState :=
  match s.symtab.end_scope with
  | Except.ok t => Except.ok ⟨s.fmap, s.amap, t, s.begin_calls, s.end_calls + 1⟩
  | Except.error e => Except.error e

/-- `self.symtab.put(a, v)`. -/
def CheckerState.putS (s : CheckerState) (a v : PyVal) : Except Err CheckerState :=
  match s.symtab.put a v with
  | Except.ok t => Except.ok ⟨s.fmap, s.amap, t, s.begin_calls, s.end_calls⟩
  | Except.error e => Except.error e

/-- `self.symtab.lookup(a)`. -/
def CheckerState.lookupS (s : CheckerState) (a : PyVal) : Except Err PyVal :=
  s.symtab.lookup a

/-- `self.amap[k]`: KeyError when absent. -/
def amapGetS (s : CheckerState) (k : PyVal) : Except Err (PyVal × List PyVal) :=
  match s.amap.find? (fun p => pyEq p.1 k) with
  | Option.some p => Except.ok p.2
  | Option.none => Except.error Err.keyError

/-- `self.amap[k] = v` (and in-place updates of the stored tuple's list). -/
def amapSetS (s : CheckerState) (k : PyVal) (v : PyVal × List PyVal) : CheckerState :=
  ⟨s.fmap,
   (if s.amap.any (fun p => pyEq p.1 k) then
      s.amap.map (fun p => if pyEq p.1 k then (k, v) else p)
    else s.amap ++ [(k, v)]),
   s.symtab, s.begin_calls, s.end_calls⟩

/-- `k in self.fmap`. -/
def fmapHas (s : CheckerState) (k : PyVal) : Bool :=
  s.fmap.any (fun p => pyEq p.1 k)

/-- `node.dim.value if node.dim is not None and isinstance(node.dim, Constant)
else None`, as recorded in `amap` by `visit_ArrayDecl`. -/
def dimValue : Option Node → PyVal
  | Option.some (Node.constant _ v) => PyVal.str v
  | _ => PyVal.none

/-- `.name` of a VarDecl node (only read under an `isinstance(_, VarDecl)`
guard in `visit_ArrayDecl`). -/
def varDeclNameAttr : Node → Option Node
  | Node.varDecl nm _ => nm
  | _ => Option.none

/-- The Python value of an optional-node attribute. -/
def pyOfOptNode : Option Node → PyVal
  | Option.some n => PyVal.node n
  | Option.none => PyVal.none

/-- `node.type` as read by `visit_Cast` (`node.expr.type`): the attribute
value in the Cast-slot encoding (`.1` a node, else `.2` a string, else the
Python value `None`); AttributeError on nodes without a `type` slot. -/
def typeAttrOf : Node → Except Err (Option Node × Option String)
  | Node.decl _ ty _ => Except.ok (ty, Option.none)
  | Node.varDecl _ ty => Except.ok (ty, Option.none)
  | Node.arrayDecl ty _ => Except.ok (ty, Option.none)
  | Node.funcDecl _ ty => Except.ok (ty, Option.none)
  | Node.constant ty _ => Except.ok (Option.none, Option.some ty)
  | Node.cast tyN tyS _ => Except.ok (tyN, tyS)
  | _ => Except.error (Err.attributeError "type")

mutual

/-- `Visitor.visit` of type_checking.py: dispatch on the node's class to the
matching `visit_XXX` method (every ast.py class has one).  The result is
the Python return value, the node after the visit (only `visit_Cast`
mutates a node, overwriting its `type` attribute), and the updated visitor
state.  The fuel decreases on every nested call and stands for Python's
recursion limit; `print` side effects are ignored.  Where a method visits
an object it obtained as another visit's return value (only the `name`
re-visits in `visit_ArrayDecl`), a mutation of that object by the nested
visit is not threaded back; no such visit can mutate, since the re-visited
objects are never Cast nodes in any run reaching that code. -/
def visit : Nat → Node → CheckerState → Except Err (PyVal × Node × CheckerState)
  | 0, _, _ => Except.error Err.outOfFuel
  | fuel+1, n, s =>
    match n with
    | Node.program gdecls => do
      -- visit_Program: open the outermost scope, visit all global
      -- declarations, close it; returns None
      let s1 := s.beginScope
      let (gdecls', s2) ← visitEach fuel gdecls s1
      let s3 ← s2.endScope
      Except.ok (PyVal.none, Node.program gdecls', s3)
    | Node.globalDecl decls => do
      -- visit_GlobalDecl
      let (decls', s1) ← visitEach fuel decls s
      Except.ok (PyVal.none, Node.globalDecl decls', s1)
    | Node.decl nm ty ini =>
      -- visit_Decl
      match ty with
      | Option.none => Except.ok (PyVal.none, Node.decl nm ty ini, s)
      | Option.some tyN => do
        let (node_type, tyN', s1) ←
          if isArrayDecl tyN then do
            -- node_type = self.amap[self.visit(node.type)][0]; the visit
            -- returns an AST node (or None) while amap is keyed by strings,
            -- so the dict lookup raises KeyError
            let (v, tyN', s1) ← visit fuel tyN s
            let entry ← amapGetS s1 v
            Except.ok (Option.some entry.1, tyN', s1)
          else if isFuncDecl tyN then do
            let (v, tyN', s1) ← visit fuel tyN s
            Except.ok (Option.some v, tyN', s1)
          else if isVarDecl tyN then do
            let (v, tyN', s1) ← visit fuel tyN s
            Except.ok (Option.some v, tyN', s1)
          else Except.ok ((Option.none : Option PyVal), tyN, s)
        match ini with
        | Option.none => Except.ok (PyVal.none, Node.decl nm (Option.some tyN') ini, s1)
        | Option.some i => do
          let (iv, i', s2) ← visit fuel i s1
          match node_type with
          | Option.none => Except.error (Err.unboundLocalError "node_type")
          | Option.some nt =>
            if pyEq nt iv then
              Except.ok (PyVal.none, Node.decl nm (Option.some tyN') (Option.some i'), s2)
            else
              Except.error
                (Err.assertionError "Declaration error: Init type differs from declared type")
    | Node.varDecl nameF tyF => do
      -- visit_VarDecl: name = visit(node.name); var_type = visit(node.type);
      -- put(name, var_type); return var_type
      let (nv, nameF', s1) ← visitOpt fuel nameF s
      let (tv, tyF', s2) ← visitOpt fuel tyF s1
      let s3 ← s2.putS nv tv
      Except.ok (tv, Node.varDecl nameF' tyF', s3)
    | Node.arrayDecl ty dim =>
      -- visit_ArrayDecl
      match ty with
      | Option.some tyN =>
        if isVarDecl tyN then do
          let (av, tyN', s1) ← visit fuel tyN s
          let array_type :=
            if pyEq av (PyVal.str "char") then PyVal.str "string" else PyVal.str "array"
          let nameAttr := varDeclNameAttr tyN'
          let (k1, _, s2) ← visitOpt fuel nameAttr s1
          let s3 ← s2.putS k1 array_type
          let (k2, _, s4) ← visitOpt fuel nameAttr s3
          let s5 := amapSetS s4 k2 (array_type, [dimValue dim])
          Except.ok (pyOfOptNode nameAttr, Node.arrayDecl (Option.some tyN') dim, s5)
        else if isArrayDecl tyN then do
          let (nv, tyN', s1) ← visit fuel tyN s
          let (k1, s2) ← visitVal fuel nv s1
          let entry ← amapGetS s2 k1
          let s3 ←
            if pyEq entry.1 (PyVal.str "string") then do
              let (k2, s2b) ← visitVal fuel nv s2
              s2b.putS k2 (PyVal.str "array")
            else Except.ok s2
          let (k3, s4) ← visitVal fuel nv s3
          let entry2 ← amapGetS s4 k3
          let s5 := amapSetS s4 k3 (entry2.1, entry2.2 ++ [dimValue dim])
          Except.ok (nv, Node.arrayDecl (Option.some tyN') dim, s5)
        else Except.ok (PyVal.none, Node.arrayDecl ty dim, s)
      | Option.none => Except.ok (PyVal.none, Node.arrayDecl ty dim, s)
    | Node.funcDecl args ty =>
      -- visit_FuncDecl
      match ty with
      | Option.some tyN =>
        if isVarDecl tyN then do
          let (node_type, tyN', s1) ← visit fuel tyN s
          match args with
          | Option.some _ =>
            -- `isinstance(node.args, ParamList)`: ast.py defines no class
            -- ParamList, so evaluating the name raises NameError
            Except.error (Err.nameError "ParamList")
          | Option.none =>
            Except.ok (node_type, Node.funcDecl args (Option.some tyN'), s1.beginScope)
        else
          -- begin_scope() still runs, then `return node_type` raises
          -- UnboundLocalError; the error discards the state
          Except.error (Err.unboundLocalError "node_type")
      | Option.none => Except.error (Err.unboundLocalError "node_type")
    | Node.funcDef dcl ps body => do
      -- visit_FuncDef
      let (dcl', s1) ←
        match dcl with
        | Option.some d => do
          let (_, d', s') ← visit fuel d s
          Except.ok (Option.some d', s')
        | Option.none => Except.ok ((Option.none : Option Node), s)
      let (ps', s2) ← visitEach fuel ps s1
      let (_, body', s3) ← visit fuel body s2
      let s4 ← s3.endScope
      Except.ok (PyVal.none, Node.funcDef dcl' ps' body', s4)
    | Node.typeNode tys =>
      -- visit_Type: node.types[0] when types is not None, else None
      match tys with
      | Option.none => Except.ok (PyVal.none, Node.typeNode tys, s)
      | Option.some [] => Except.error Err.indexError
      | Option.some (t :: _) => Except.ok (PyVal.str t, Node.typeNode tys, s)
    | Node.constant ty v =>
      -- visit_Constant: return node.type
      Except.ok (PyVal.str ty, Node.constant ty v, s)
    | Node.id nm =>
      -- visit_ID: return node.name
      Except.ok (PyVal.str nm, Node.id nm, s)
    | Node.binaryOp op l r => do
      -- visit_BinaryOp
      let (left, l', s1) ← typeFromIdOrConst "BinaryOp error: Left element not defined" fuel l s
      let (right, r', s2) ← typeFromIdOrConst "BinaryOp error: Right element not defined" fuel r s1
      if pyEq left right then do
        let tt ← type_table_get left
        if tt.binary_ops.contains op || tt.rel_ops.contains op then
          Except.ok (left, Node.binaryOp op l' r', s2)
        else Except.error (Err.assertionError "BinaryOp error: Operator mismatch")
      else Except.error (Err.assertionError "BinaryOp error: Elements type mismatch")
    | Node.unaryOp op e => do
      -- visit_UnaryOp: var_type = lookup(visit(node.expr)); check unary_ops
      let (nv, e', s1) ← visit fuel e s
      let vt ← s1.lookupS nv
      let tt ← type_table_get vt
      if tt.unary_ops.contains op then Except.ok (PyVal.none, Node.unaryOp op e', s1)
      else Except.error (Err.assertionError "Unary operation: operator mismatch")
    | Node.assignment op l r => do
      -- visit_Assignment
      let (lv, l', s1) ← visit fuel l s
      let left ← s1.lookupS lv
      if pyTruthy left then do
        let (right, r', s2) ←
          if isID r || isArrayRef r then do
            let (rv, r', s') ← visit fuel r s1
            let rt ← s'.lookupS rv
            Except.ok (rt, r', s')
          else visit fuel r s1
        if pyEq left right then do
          let tt ← type_table_get left
          if tt.assign_ops.contains op then
            Except.ok (PyVal.none, Node.assignment op l' r', s2)
          else Except.error (Err.assertionError "Assignment error: operation mismatch")
        else Except.error (Err.assertionError "Assignment error: Type mismatch")
      else Except.error (Err.assertionError "Assignment error: undefined element")
    | Node.cast tyN tyS e => do
      -- visit_Cast: visit the operand, then `node.type = node.expr.type`;
      -- falls off the end, so it returns None
      let (_, e', s1) ← visit fuel e s
      let ta ← typeAttrOf e'
      Except.ok (PyVal.none, Node.cast ta.1 ta.2 e', s1)
    | Node.exprList es => do
      -- visit_ExprList
      let (es', s1) ← visitEach fuel es s
      Except.ok (PyVal.none, Node.exprList es', s1)
    | Node.funcCall nameF args => do
      -- visit_FuncCall
      let (nv, nameF', s1) ← visit fuel nameF s
      if fmapHas s1 nv then do
        let (args', s2) ←
          match args with
          | Option.some a =>
            if isID a then do
              let (_, a', s') ← visit fuel a s1
              Except.ok (Option.some a', s')
            else Except.ok (Option.some a, s1)
          | Option.none => Except.ok ((Option.none : Option Node), s1)
        let (nv2, nameF2, s3) ← visit fuel nameF' s2
        let rt ← s3.lookupS nv2
        Except.ok (rt, Node.funcCall nameF2 args', s3)
      else Except.error (Err.assertionError "Function Call error: function not declared")
    | Node.arrayRef nameF sub => do
      -- visit_ArrayRef
      let (nv, nameF', s1) ← visit fuel nameF s
      let array ← s1.lookupS nv
      if pyTruthy array then
        if pyEq array (PyVal.str "string") then
          -- `if array == 'string': return 'char'`, before any subscript check
          Except.ok (PyVal.str "char", Node.arrayRef nameF' sub, s1)
        else do
          -- `if array == 'array': pass`, then the subscript isinstance chain
          let (sub', s3) ←
            if isArrayRef sub then do
              let (cv, sub', s2) ← visit fuel sub s1
              if pyEq cv (PyVal.str "int") then Except.ok (sub', s2)
              else Except.error (Err.assertionError "Array Refence error: Index not integer")
            else if isID sub then do
              let (sv, sub', s2) ← visit fuel sub s1
              let cv ← s2.lookupS sv
              if pyEq cv (PyVal.str "int") then Except.ok (sub', s2)
              else Except.error (Err.assertionError "Array Refence error: Index not integer")
            else if isConstant sub then do
              let (cv, sub', s2) ← visit fuel sub s1
              if pyEq cv (PyVal.str "int") then Except.ok (sub', s2)
              else Except.error (Err.assertionError "Array Refence error: Index not integer")
            else Except.ok (sub, s1)
          -- `return self.visit(node.name)`: the identifier is visited again
          -- and its name string is the method's result
          let (nv2, nameF2, s4) ← visit fuel nameF' s3
          Except.ok (nv2, Node.arrayRef nameF2 sub', s4)
      else Except.error (Err.assertionError "Array Refence error: Array not declared")
    | Node.compound items => do
      -- visit_Compound
      let (items', s1) ← visitEach fuel items s
      Except.ok (PyVal.none, Node.compound items', s1)
    | Node.ifStmt c t e => do
      -- visit_If
      let (_, c', s1) ← visit fuel c s
      let (_, t', s2) ← visit fuel t s1
      match e with
      | Option.some eb => do
        let (_, eb', s3) ← visit fuel eb s2
        Except.ok (PyVal.none, Node.ifStmt c' t' (Option.some eb'), s3)
      | Option.none => Except.ok (PyVal.none, Node.ifStmt c' t' Option.none, s2)
    | Node.whileStmt c b => do
      -- visit_While
      let (_, c', s1) ← visit fuel c s
      let (_, b', s2) ← visit fuel b s1
      Except.ok (PyVal.none, Node.whileStmt c' b', s2)
    | Node.forStmt ini c nx b => do
      -- visit_For: a scope around initializer, condition, step and body
      let s0 := s.beginScope
      let (_, ini', s1) ← visitOpt fuel ini s0
      let (_, c', s2) ← visitOpt fuel c s1
      let (_, nx', s3) ← visitOpt fuel nx s2
      let (_, b', s4) ← visit fuel b s3
      let s5 ← s4.endScope
      Except.ok (PyVal.none, Node.forStmt ini' c' nx' b', s5)
    | Node.declList ds => do
      -- visit_DeclList
      let (ds', s1) ← visitEach fuel ds s
      Except.ok (PyVal.none, Node.declList ds', s1)
    | Node.emptyStatement => Except.ok (PyVal.none, Node.emptyStatement, s)
    | Node.assertStmt e => do
      -- visit_Assert
      let (_, e', s1) ← visit fuel e s
      Except.ok (PyVal.none, Node.assertStmt e', s1)
    | Node.printStmt e =>
      -- visit_Print
      match e with
      | Option.some en => do
        let (_, en', s1) ← visit fuel en s
        Except.ok (PyVal.none, Node.printStmt (Option.some en'), s1)
      | Option.none => Except.ok (PyVal.none, Node.printStmt Option.none, s)
    | Node.readStmt e =>
      -- visit_Read
      match e with
      | Option.some en => do
        let (_, en', s1) ← visit fuel en s
        Except.ok (PyVal.none, Node.readStmt (Option.some en'), s1)
      | Option.none => Except.ok (PyVal.none, Node.readStmt Option.none, s)
    | Node.initList es =>
      -- visit_InitList
      match es with
      | Option.none => Except.ok (PyVal.none, Node.initList es, s)
      | Option.some [] => Except.error Err.indexError
      | Option.some (e0 :: rest) => do
        let (consistency, e0', s1) ←
          typeFromIdOrConst "InitList error: Element not defined" fuel e0 s
        let (es', s2) ← initLoop fuel consistency (e0' :: rest) s1
        Except.ok (consistency, Node.initList (Option.some es'), s2)

/-- The `for` loops of the visitor (visit every node of a list in order,
discarding the return values). -/
def visitEach : Nat → List Node → CheckerState → Except Err (List Node × CheckerState)
  | 0, _, _ => Except.error Err.outOfFuel
  | _+1, [], s => Except.ok ([], s)
  | fuel+1, n :: ns, s => do
    let (_, n', s1) ← visit fuel n s
    let (ns', s2) ← visitEach fuel ns s1
    Except.ok (n' :: ns', s2)

/-- `self.visit(x)` where the attribute `x` may be Python `None`:
visiting `None` dispatches to `generic_visit`, whose `for c in node`
iteration raises TypeError. -/
def visitOpt : Nat → Option Node → CheckerState → Except Err (PyVal × Option Node × CheckerState)
  | 0, _, _ => Except.error Err.outOfFuel
  | _+1, Option.none, _ => Except.error Err.typeError
  | fuel+1, Option.some n, s => do
    let (v, n', s') ← visit fuel n s
    Except.ok (v, Option.some n', s')

/-- `self.visit(x)` where `x` is a value returned by a previous visit
(the `name` re-visits of `visit_ArrayDecl`).  Visiting `None` raises
TypeError in `generic_visit`; visiting a string iterates its characters,
terminating only for the empty string (each character is again a
one-character string, so a nonempty string recurses forever: modelled as
RecursionError); visiting a list visits its elements. -/
def visitVal : Nat → PyVal → CheckerState → Except Err (PyVal × CheckerState)
  | 0, _, _ => Except.error Err.outOfFuel
  | fuel+1, v, s =>
    match v with
    | PyVal.node n => do
      let (r, _, s') ← visit fuel n s
      Except.ok (r, s')
    | PyVal.none => Except.error Err.typeError
    | PyVal.str s0 => if s0 == "" then Except.ok (PyVal.none, s) else Except.error Err.recursionError
    | PyVal.nodes ns => do
      let (_, s') ← visitEach fuel ns s
      Except.ok (PyVal.none, s')

/-- `Visitor.type_from_id_or_const(look, error)`: an ID resolves through
the symbol table (`assert look_type, error` failing with the caller's
message when the lookup result is falsy), a Constant carries its own type,
and any other node is visited (the BinaryOp/FuncCall arm and the else arm
of the Python code both just visit). -/
def typeFromIdOrConst (errMsg : String) :
    Nat → Node → CheckerState → Except Err (PyVal × Node × CheckerState)
  | 0, _, _ => Except.error Err.outOfFuel
  | fuel+1, look, s =>
    match look with
    | Node.id nm =>
      match s.lookupS (PyVal.str nm) with
      | Except.ok lt =>
        if pyTruthy lt then Except.ok (lt, Node.id nm, s)
        else Except.error (Err.assertionError errMsg)
      | Except.error e => Except.error e
    | Node.constant ty v => Except.ok (PyVal.str ty, Node.constant ty v, s)
    | _ => visit fuel look s

/-- The element loop of `visit_InitList`: resolve every element with
`type_from_id_or_const` and assert it equals the first element's type. -/
def initLoop : Nat → PyVal → List Node → CheckerState → Except Err (List Node × CheckerState)
  | 0, _, _, _ => Except.error Err.outOfFuel
  | _+1, _, [], s => Except.ok ([], s)
  | fuel+1, consistency, e :: es, s => do
    let (verify, e', s1) ← typeFromIdOrConst "InitList error: Element not defined" fuel e s
    if pyEq consistency verify then do
      let (es', s2) ← initLoop fuel consistency es s1
      Except.ok (e' :: es', s2)
    else Except.error (Err.assertionError "InitList error: Type consistency")

end

/-- The state of a freshly constructed `Visitor`: empty `fmap` and `amap`,
a symbol table with `scope = -1` and no frames, and zeroed call counters. -/
def initialState : CheckerState := ⟨[], [], ⟨-1, []⟩, 0, 0⟩

mutual

/-- Erase the mutable Cast `type` attribute everywhere: two trees with equal
erasures differ at most in Cast `type` attributes. -/
def erase : Node → Node
  | Node.program gs => Node.program (eraseList gs)
  | Node.globalDecl ds => Node.globalDecl (eraseList ds)
  | Node.decl nm ty ini => Node.decl nm (eraseOpt ty) (eraseOpt ini)
  | Node.varDecl nm ty => Node.varDecl (eraseOpt nm) (eraseOpt ty)
  | Node.arrayDecl ty dim => Node.arrayDecl (eraseOpt ty) (eraseOpt dim)
  | Node.funcDecl args ty => Node.funcDecl (eraseOpt args) (eraseOpt ty)
  | Node.funcDef d ps b => Node.funcDef (eraseOpt d) (eraseList ps) (erase b)
  | Node.typeNode tys => Node.typeNode tys
  | Node.constant ty v => Node.constant ty v
  | Node.id nm => Node.id nm
  | Node.binaryOp op l r => Node.binaryOp op (erase l) (erase r)
  | Node.unaryOp op e => Node.unaryOp op (erase e)
  | Node.assignment op l r => Node.assignment op (erase l) (erase r)
  | Node.cast _ _ e => Node.cast Option.none Option.none (erase e)
  | Node.exprList es => Node.exprList (eraseList es)
  | Node.funcCall nm args => Node.funcCall (erase nm) (eraseOpt args)
  | Node.arrayRef nm sub => Node.arrayRef (erase nm) (erase sub)
  | Node.compound items => Node.compound (eraseList items)
  | Node.ifStmt c t e => Node.ifStmt (erase c) (erase t) (eraseOpt e)
  | Node.whileStmt c b => Node.whileStmt (erase c) (erase b)
  | Node.forStmt i c nx b => Node.forStmt (eraseOpt i) (eraseOpt c) (eraseOpt nx) (erase b)
  | Node.declList ds => Node.declList (eraseList ds)
  | Node.emptyStatement => Node.emptyStatement
  | Node.assertStmt e => Node.assertStmt (erase e)
  | Node.printStmt e => Node.printStmt (eraseOpt e)
  | Node.readStmt e => Node.readStmt (eraseOpt e)
  | Node.initList es => Node.initList (eraseOptList es)

def eraseList : List Node → List Node
  | [] => []
  | n :: ns => erase n :: eraseList ns

def eraseOpt : Option Node → Option Node
  | Option.none => Option.none
  | Option.some n => Option.some (erase n)

def eraseOptList : Option (List Node) → Option (List Node)
  | Option.none => Option.none
  | Option.some ns => Option.some (eraseList ns)

end

/-- A numeric tag for the node's class (Python's dispatch key). -/
def kindOf : Node → Nat
  | Node.program _ => 0
  | Node.globalDecl _ => 1
  | Node.decl _ _ _ => 2
  | Node.varDecl _ _ => 3
  | Node.arrayDecl _ _ => 4
  | Node.funcDecl _ _ => 5
  | Node.funcDef _ _ _ => 6
  | Node.typeNode _ => 7
  | Node.constant _ _ => 8
  | Node.id _ => 9
  | Node.binaryOp _ _ _ => 10
  | Node.unaryOp _ _ => 11
  | Node.assignment _ _ _ => 12
  | Node.cast _ _ _ => 13
  | Node.exprList _ => 14
  | Node.funcCall _ _ => 15
  | Node.arrayRef _ _ => 16
  | Node.compound _ => 17
  | Node.ifStmt _ _ _ => 18
  | Node.whileStmt _ _ => 19
  | Node.forStmt _ _ _ _ => 20
  | Node.declList _ => 21
  | Node.emptyStatement => 22
  | Node.assertStmt _ => 23
  | Node.printStmt _ => 24
  | Node.readStmt _ => 25
  | Node.initList _ => 26

mutual

/-- The net number of scopes a successful visit of the node leaves open:
`visit_FuncDecl` opens one scope it never closes, `visit_FuncDef` closes
one scope it never opened, and `visit_Program` / `visit_For` open and close
their own.  The count is syntactic; it matches the visitor's behaviour on
well-formed (`wf`) trees, whose re-visited name positions are plain
identifiers and hence scope-neutral. -/
def netScopes : Node → Int
  | Node.program gs => netList gs
  | Node.globalDecl ds => netList ds
  | Node.decl _ ty ini =>
    (match ty with
     | Option.none => 0
     | Option.some t =>
       (if isArrayDecl t || isFuncDecl t || isVarDecl t then netScopes t else 0) +
       (match ini with
        | Option.none => 0
        | Option.some i => netScopes i))
  | Node.varDecl nm ty => netOpt nm + netOpt ty
  | Node.arrayDecl ty _ =>
    (match ty with
     | Option.some t => if isVarDecl t || isArrayDecl t then netScopes t else 0
     | Option.none => 0)
  | Node.funcDecl _ ty =>
    1 + (match ty with
         | Option.some t => if isVarDecl t then netScopes t else 0
         | Option.none => 0)
  | Node.funcDef d ps b => netOpt d + netList ps + netScopes b - 1
  | Node.typeNode _ => 0
  | Node.constant _ _ => 0
  | Node.id _ => 0
  | Node.binaryOp _ l r => netScopes l + netScopes r
  | Node.unaryOp _ e => netScopes e
  | Node.assignment _ l r => netScopes l + netScopes r
  | Node.cast _ _ e => netScopes e
  | Node.exprList es => netList es
  | Node.funcCall _ _ => 0
  | Node.arrayRef _ _ => 0
  | Node.compound items => netList items
  | Node.ifStmt c t e => netScopes c + netScopes t + netOpt e
  | Node.whileStmt c b => netScopes c + netScopes b
  | Node.forStmt i c nx b => netOpt i + netOpt c + netOpt nx + netScopes b
  | Node.declList ds => netList ds
  | Node.emptyStatement => 0
  | Node.assertStmt e => netScopes e
  | Node.printStmt e => netOpt e
  | Node.readStmt e => netOpt e
  | Node.initList _ => 0

def netList : List Node → Int
  | [] => 0
  | n :: ns => netScopes n + netList ns

def netOpt : Option Node → Int
  | Option.none => 0
  | Option.some n => netScopes n

end

mutual

/-- Well-formed trees: every position the visitor resolves as a *name* (a
VarDecl's declname, an ArrayRef or FuncCall base) holds a plain identifier,
ArrayRef subscripts that get visited are identifiers, constants or further
well-formed ArrayRefs, and initializer-list elements are identifiers or
constants.  Every tree the grammar of parser.py describes satisfies this;
the restriction makes the re-visited positions scope-neutral and
mutation-free. -/
def wf : Node → Bool
  | Node.program gs => wfList gs
  | Node.globalDecl ds => wfList ds
  | Node.decl _ ty ini => wfOpt ty && wfOpt ini
  | Node.varDecl nm ty =>
    (match nm with
     | Option.some (Node.id _) => true
     | _ => false) && wfOpt ty
  | Node.arrayDecl ty _ => wfOpt ty
  | Node.funcDecl _ ty => wfOpt ty
  | Node.funcDef d ps b => wfOpt d && wfList ps && wf b
  | Node.typeNode _ => true
  | Node.constant _ _ => true
  | Node.id _ => true
  | Node.binaryOp _ l r => wf l && wf r
  | Node.unaryOp _ e => wf e
  | Node.assignment _ l r => wf l && wf r
  | Node.cast _ _ e => wf e
  | Node.exprList es => wfList es
  | Node.funcCall nm _ => isID nm
  | Node.arrayRef nm sub => isID nm && (if isArrayRef sub then wf sub else true)
  | Node.compound items => wfList items
  | Node.ifStmt c t e => wf c && wf t && wfOpt e
  | Node.whileStmt c b => wf c && wf b
  | Node.forStmt i c nx b => wfOpt i && wfOpt c && wfOpt nx && wf b
  | Node.declList ds => wfList ds
  | Node.emptyStatement => true
  | Node.assertStmt e => wf e
  | Node.printStmt e => wfOpt e
  | Node.readStmt e => wfOpt e
  | Node.initList es =>
    (match es with
     | Option.none => true
     | Option.some l => l.all (fun e => isID e || isConstant e))

def wfList : List Node → Bool
  | [] => true
  | n :: ns => wf n && wfList ns

def wfOpt : Option Node → Bool
  | Option.none => true
  | Option.some n => wf n

end

/-- The AST of the bare prototype `int f();`:
`Program [GlobalDecl [Decl(FuncDecl(args=None, VarDecl(f, int)))]]`. -/
def protoProg : Node :=
  Node.program [Node.globalDecl [Node.decl Option.none
    (Option.some (Node.funcDecl Option.none
      (Option.some (Node.varDecl (Option.some (Node.id "f"))
        (Option.some (Node.typeNode (Option.some ["int"]))))))) Option.none]]

/-- The AST of `int x; void g() {}`: a global variable declaration plus a
parameterless function definition with an empty body. -/
def balProg : Node :=
  Node.program [
    Node.globalDecl [Node.decl Option.none
      (Option.some (Node.varDecl (Option.some (Node.id "x"))
        (Option.some (Node.typeNode (Option.some ["int"]))))) Option.none],
    Node.funcDef (Option.some (Node.decl Option.none
      (Option.some (Node.funcDecl Option.none
        (Option.some (Node.varDecl (Option.some (Node.id "g"))
          (Option.some (Node.typeNode (Option.some ["void"]))))))) Option.none))
      [] (Node.compound [])]

/-- The AST of the declarator part of `char a[3];`: an ArrayDecl over a
VarDecl of the given name with element specifier `char`. -/
def charArrDecl (a : String) : Node :=
  Node.arrayDecl
    (Option.some (Node.varDecl (Option.some (Node.id a))
      (Option.some (Node.typeNode (Option.some ["char"])))))
    (Option.some (Node.constant "int" "3"))

/-- The AST of the declarator part of `int a[3];`. -/
def intArrDecl (a : String) : Node :=
  Node.arrayDecl
    (Option.some (Node.varDecl (Option.some (Node.id a))
      (Option.some (Node.typeNode (Option.some ["int"])))))
    (Option.some (Node.constant "int" "3"))

/-- Net begin/end scope-call balance recorded in a checker state. -/
def ScopeDelta (s : CheckerState) : Int := (s.begin_calls : Int) - (s.end_calls : Int)

/-- Return-value and output-shape facts carried through the scope-balance
induction: an ArrayDecl visit returns `None` or an identifier node, and a
VarDecl visit preserves the declname child. -/
def shapeOk : Node → PyVal → Node → Prop
  | Node.arrayDecl _ _, v, _ => v = PyVal.none ∨ ∃ nm, v = PyVal.node (Node.id nm)
  | Node.varDecl nm _, _, t' => ∃ ty2, t' = Node.varDecl nm ty2
  | _, _, _ => True

/-
  Helper lemmas.
-/

theorem except_bind_ok {α β : Type} (a : α) (f : α → Except Err β) :
    (Except.ok a : Except Err α) >>= f = f a := rfl

theorem except_bind_error {α β : Type} (e : Err) (f : α → Except Err β) :
    (Except.error e : Except Err α) >>= f = Except.error e := rfl

theorem except_pure_eq_ok {α : Type} (a : α) : (pure a : Except Err α) = Except.ok a := rfl

theorem tailOk_freshMod (m : DeclMod) : tailOk (freshMod m) = Except.ok () := by
  cases m <;> rfl

theorem setTailType_freshMod (m : DeclMod) (x : Node) :
    setTailType (freshMod m) x = Except.ok (applyMod m x) := by
  cases m <;> rfl

theorem isVarDecl_applyMod (m : DeclMod) (inner : Node) :
    isVarDecl (applyMod m inner) = false := by
  cases m <;> rfl

theorem spliceAt_applyMod (m0 : DeclMod) (X modifier Y : Node)
    (hX : isVarDecl X = false) (h : spliceAt X modifier = Except.ok Y) :
    spliceAt (applyMod m0 X) modifier = Except.ok (applyMod m0 Y) := by
  cases m0 <;> simp [applyMod, spliceAt, hX, h, except_bind_ok]

theorem spliceAt_applyMod_leaf (m0 : DeclMod) (leaf modifier Y : Node)
    (hX : isVarDecl leaf = true) (h : setTailType modifier leaf = Except.ok Y) :
    spliceAt (applyMod m0 leaf) modifier = Except.ok (applyMod m0 Y) := by
  cases m0 <;> simp [applyMod, spliceAt, hX, h, except_bind_ok]

theorem spliceAt_chain (ms : List DeclMod) (m0 : DeclMod) (leaf : Node) (m : DeclMod)
    (h : isVarDecl leaf = true) :
    spliceAt (applyMod m0 (modChain ms leaf)) (freshMod m)
      = Except.ok (applyMod m0 (modChain (ms ++ [m]) leaf)) := by
  induction ms generalizing m0 with
  | nil =>
    have := spliceAt_applyMod_leaf m0 leaf (freshMod m) (applyMod m leaf) h
      (setTailType_freshMod m leaf)
    simpa [modChain] using this
  | cons m1 ms' ih =>
    have := spliceAt_applyMod m0 (modChain (m1 :: ms') leaf) (freshMod m)
      (applyMod m1 (modChain (ms' ++ [m]) leaf)) (by simp [modChain, isVarDecl_applyMod])
      (by simpa [modChain] using ih m1)
    simpa [modChain] using this

theorem type_modify_chain (ms : List DeclMod) (leaf : Node) (m : DeclMod)
    (h : isVarDecl leaf = true) :
    type_modify_decl (modChain ms leaf) (freshMod m)
      = Except.ok (modChain (ms ++ [m]) leaf) := by
  cases ms with
  | nil =>
    cases leaf <;> simp [isVarDecl] at h
    cases m <;> rfl
  | cons m0 ms' =>
    simp only [type_modify_decl, tailOk_freshMod, bind, Except.bind, modChain]
    rw [if_neg]
    · exact spliceAt_chain ms' m0 leaf m h
    · simp [isVarDecl_applyMod]

theorem buildDeclarator_chain (ms acc : List DeclMod) (leaf : Node)
    (h : isVarDecl leaf = true) :
    List.foldlM (fun d m => type_modify_decl d (freshMod m)) (modChain acc leaf) ms
      = Except.ok (modChain (acc ++ ms) leaf) := by
  induction ms generalizing acc with
  | nil => simp [List.foldlM]; rfl
  | cons m ms' ih =>
    simp only [List.foldlM, type_modify_chain acc leaf m h, bind, Except.bind]
    rw [ih (acc ++ [m])]
    simp

theorem readMods_chain (ms : List DeclMod) (nm ty : Option Node) :
    readMods (modChain ms (Node.varDecl nm ty)) = (ms, Node.varDecl nm ty) := by
  induction ms with
  | nil => rfl
  | cons m ms' ih => cases m <;> simp [modChain, applyMod, readMods, ih]

/-
  Claim theorems.
-/

/-- C1 (counterexample): the claim says `_type_modify_decl` splices a new
modifier at the leaf's type link for declarators built from an identifier;
but the identifier production yields a bare `ast.ID`, which has no `type`
slot, so already the first reduction of `a[5]` raises AttributeError
instead of splicing. -/
theorem c1_counterexample :
    p_direct_declarator_3 (p_identifier "a") (Option.some (Node.constant "int" "5"))
      = Except.error (Err.attributeError "type") := rfl

/-- C1 (amended): applying any postfix modifier to a parsed identifier
raises AttributeError; when the declarator's leaf is the VarDecl
name-holder the algorithm expects, splicing a sequence of fresh modifiers
with `_type_modify_decl` always succeeds and produces exactly the chain
whose outer-to-inner reading lists the modifiers in source (application)
order, with the leaf preserved — never reversed. -/
theorem c1_amended (s : String) (dim : Option Node) (nm ty : Option Node)
    (ms : List DeclMod) :
    p_direct_declarator_3 (p_identifier s) dim = Except.error (Err.attributeError "type")
    ∧ buildDeclarator (Node.varDecl nm ty) ms
        = Except.ok (modChain ms (Node.varDecl nm ty))
    ∧ readMods (modChain ms (Node.varDecl nm ty)) = (ms, Node.varDecl nm ty) := by
  refine ⟨rfl, ?_, readMods_chain ms nm ty⟩
  have := buildDeclarator_chain ms [] (Node.varDecl nm ty) rfl
  simpa [buildDeclarator, modChain] using this

/-- C3 (counterexample): a value declaration (VarDecl declarator) with an
empty specifier list is not defaulted to `int`: `_fix_decl_name_type`
raises AttributeError at `decl.name = type.declname` (VarDecl has no
`declname` slot) before the defaulting logic can run. -/
theorem c3_counterexample :
    fix_decl_name_type
      (Node.decl Option.none
        (Option.some (Node.varDecl (Option.some (Node.id "x")) Option.none))
        Option.none) []
      = Except.error (Err.attributeError "declname") := rfl

/-- C3 (amended): `_fix_decl_name_type` raises an exception on every
declaration and every specifier list — the VarDecl-leaf walk either fails
to find a leaf or reaches one and trips over the nonexistent `declname`
attribute — so no declaration is ever defaulted (to `int` or anything
else) and the "missing type in declaration" branch is unreachable. -/
theorem c3_amended (d : Node) (tn : List Node) :
    ∃ e, fix_decl_name_type d tn = Except.error e := by
  unfold fix_decl_name_type
  cases h : reachVarDecl d with
  | ok v => exact ⟨Err.attributeError "declname", by simp [h, bind, Except.bind]⟩
  | error e => exact ⟨e, by simp [h, bind, Except.bind]⟩

/-- C5 (code evaluated at the failing input): after `int a[3]` binds `a` to
the category `'array'`, the ArrayRef check of `a[0]` succeeds but returns
the base identifier's *name* `"a"` (the value of `return self.visit(node.name)`),
not the element type `int`; a `float` subscript on a string base is never
checked (the string case returns `'char'` before the subscript test); and a
base declared as a plain `int` (never as array or string) passes the
declared-ness assert instead of failing. -/
theorem c5_eval :
    ((visit 9 (intArrDecl "a") initialState.beginScope).bind fun r =>
        (visit 9 (Node.arrayRef (Node.id "a") (Node.constant "int" "0")) r.2.2).map fun q => q.1)
      = Except.ok (PyVal.str "a")
    ∧ ((visit 9 (charArrDecl "s") initialState.beginScope).bind fun r =>
        (visit 9 (Node.arrayRef (Node.id "s") (Node.constant "float" "1.0")) r.2.2).map fun q => q.1)
      = Except.ok (PyVal.str "char")
    ∧ ((visit 9 (Node.varDecl (Option.some (Node.id "x"))
          (Option.some (Node.typeNode (Option.some ["int"])))) initialState.beginScope).bind fun r =>
        (visit 9 (Node.arrayRef (Node.id "x") (Node.constant "int" "0")) r.2.2).map fun q => q.1)
      = Except.ok (PyVal.str "x") := ⟨rfl, rfl, rfl⟩

/-- C6 (code evaluated at the failing input): checking the cast
`(int)1.0` computes no result type at all (`visit_Cast` returns `None`)
and overwrites the Cast node's `type` child with the *operand's* type
`'float'` — not the target type `int` named in the cast. -/
theorem c6_eval :
    visit 3 (Node.cast (Option.some (Node.typeNode (Option.some ["int"]))) Option.none
        (Node.constant "float" "1.0")) initialState
      = Except.ok (PyVal.none,
          Node.cast Option.none (Option.some "float") (Node.constant "float" "1.0"),
          initialState) := rfl

/-- C7 (code evaluated at the failing input): `concat_exprs` builds the
correct flat ExprList (wrapping a non-sequence left operand first), but the
method body has no `return`, so its value — and hence the reduced
production's semantic value `p[0]` — is `None`, not the sequence node. -/
theorem c7_eval :
    concat_exprs (Option.some (Node.id "a")) (Node.id "b")
      = Except.ok (Option.none, Node.exprList [Node.id "a", Node.id "b"])
    ∧ concat_exprs (Option.some (Node.exprList [Node.id "a", Node.id "b"])) (Node.id "c")
      = Except.ok (Option.none, Node.exprList [Node.id "a", Node.id "b", Node.id "c"])
    ∧ p_expression_comma (Option.some (Node.id "a")) (Node.id "b") = Except.ok Option.none :=
  ⟨rfl, rfl, rfl⟩

/-- C2: for every BinaryOp whose two operands resolve (via
`type_from_id_or_const`) to type names, with the left one naming a
registered type: if the resolved types differ the check fails with the
type-mismatch assertion; if they agree but the operator is in neither the
binary-operator nor the relational-operator set of that type it fails with
the operator-mismatch assertion; otherwise it returns the matching operand
type.  In particular `1 + 1.0` fails with the type mismatch. -/
theorem c2_binaryOp :
    (∀ (fuel : Nat) (op : String) (l r : Node) (s : CheckerState)
       (tl tr : String) (l' r' : Node) (s1 s2 : CheckerState) (tt : uCType),
       typeFromIdOrConst "BinaryOp error: Left element not defined" fuel l s
         = Except.ok (PyVal.str tl, l', s1) →
       typeFromIdOrConst "BinaryOp error: Right element not defined" fuel r s1
         = Except.ok (PyVal.str tr, r', s2) →
       type_table_get (PyVal.str tl) = Except.ok tt →
       (tl ≠ tr →
         visit (fuel+1) (Node.binaryOp op l r) s
           = Except.error (Err.assertionError "BinaryOp error: Elements type mismatch")) ∧
       ((tt.binary_ops.contains op || tt.rel_ops.contains op) = false → tl = tr →
         visit (fuel+1) (Node.binaryOp op l r) s
           = Except.error (Err.assertionError "BinaryOp error: Operator mismatch")) ∧
       ((tt.binary_ops.contains op || tt.rel_ops.contains op) = true → tl = tr →
         visit (fuel+1) (Node.binaryOp op l r) s
           = Except.ok (PyVal.str tl, Node.binaryOp op l' r', s2)))
    ∧ visit 2 (Node.binaryOp "+" (Node.constant "int" "1") (Node.constant "float" "1.0"))
        initialState
      = Except.error (Err.assertionError "BinaryOp error: Elements type mismatch") := by
  refine ⟨?_, rfl⟩
  intro fuel op l r s tl tr l' r' s1 s2 tt h1 h2 ht
  refine ⟨?_, ?_, ?_⟩
  · intro hne
    have hb : (tl == tr) = false := beq_eq_false_iff_ne.mpr hne
    simp [visit, h1, h2, except_bind_ok, bind, Except.bind, pyEq, hb]
  · intro hop heq
    subst heq
    have hop' : ¬(op ∈ tt.binary_ops) ∧ ¬(op ∈ tt.rel_ops) := by
      simpa [not_or] using hop
    simp [visit, h1, h2, except_bind_ok, bind, Except.bind, pyEq, ht, hop'.1, hop'.2]
  · intro hop heq
    subst heq
    have hop' : op ∈ tt.binary_ops ∨ op ∈ tt.rel_ops := by
      simpa using hop
    simp only [visit, h1, h2, except_bind_ok, bind, Except.bind, pyEq, ht, beq_self_eq_true,
      if_true]
    simp [hop']

/-- Witness for C2: `1 + 2` resolves both operands to `int`, `+` is in
`int`'s binary-operator set, and the resolved result type is `int`. -/
theorem c2_binaryOp_witness :
    visit 2 (Node.binaryOp "+" (Node.constant "int" "1") (Node.constant "int" "2")) initialState
      = Except.ok (PyVal.str "int",
          Node.binaryOp "+" (Node.constant "int" "1") (Node.constant "int" "2"),
          initialState) :=
  (c2_binaryOp.1 1 "+" (Node.constant "int" "1") (Node.constant "int" "2") initialState
    "int" "int" (Node.constant "int" "1") (Node.constant "int" "2") initialState initialState
    IntType rfl rfl rfl).2.2 rfl rfl

/-- C9: visiting the declarator of `char a[3]` binds `a` to the category
`'string'` (not `'array'`), so the subsequent checks use the string rules:
indexing `a[0]` resolves to `'char'`, the relational operator `==` is legal
for `a` while the arithmetic `+` fails with the operator mismatch; adding a
further dimension (`char a[3][4]`) rebinds the name to `'array'`. -/
theorem c9_char_array :
    (∃ s1,
      visit 9 (charArrDecl "a") initialState.beginScope
        = Except.ok (PyVal.node (Node.id "a"), charArrDecl "a", s1)
      ∧ s1.symtab.lookup (PyVal.str "a") = Except.ok (PyVal.str "string")
      ∧ visit 9 (Node.arrayRef (Node.id "a") (Node.constant "int" "0")) s1
          = Except.ok (PyVal.str "char",
              Node.arrayRef (Node.id "a") (Node.constant "int" "0"), s1)
      ∧ visit 9 (Node.binaryOp "==" (Node.id "a") (Node.id "a")) s1
          = Except.ok (PyVal.str "string",
              Node.binaryOp "==" (Node.id "a") (Node.id "a"), s1)
      ∧ visit 9 (Node.binaryOp "+" (Node.id "a") (Node.id "a")) s1
          = Except.error (Err.assertionError "BinaryOp error: Operator mismatch"))
    ∧ (∃ s2,
      visit 9 (Node.arrayDecl (Option.some (charArrDecl "a"))
          (Option.some (Node.constant "int" "4"))) initialState.beginScope
        = Except.ok (PyVal.node (Node.id "a"),
            Node.arrayDecl (Option.some (charArrDecl "a"))
              (Option.some (Node.constant "int" "4")), s2)
      ∧ s2.symtab.lookup (PyVal.str "a") = Except.ok (PyVal.str "array")) :=
  ⟨⟨⟨[], [(PyVal.str "a", (PyVal.str "string", [PyVal.str "3"]))],
      ⟨0, [[(PyVal.str "a", PyVal.str "string")]]⟩, 1, 0⟩,
    rfl, rfl, rfl, rfl, rfl⟩,
   ⟨⟨[], [(PyVal.str "a", (PyVal.str "string", [PyVal.str "3", PyVal.str "4"]))],
      ⟨0, [[(PyVal.str "a", PyVal.str "array")]]⟩, 1, 0⟩,
    rfl, rfl⟩⟩

/-- C10: `begin_scope` immediately followed by `end_scope` restores the
symbol table exactly: the appended empty frame is popped, the scope index
returns to its old value, and every pre-existing frame (hence every
binding) is untouched. -/
theorem c10_begin_end_scope (st : SymbolTable) :
    (st.begin_scope).end_scope = Except.ok st := by
  cases st with
  | mk scope symtabs =>
    simp [SymbolTable.begin_scope, SymbolTable.end_scope, List.dropLast_concat]


theorem ScopeDelta_beginScope (s : CheckerState) :
    ScopeDelta s.beginScope = ScopeDelta s + 1 := by
  simp [CheckerState.beginScope, ScopeDelta]
  push_cast
  omega

theorem endScope_delta {s s' : CheckerState} (h : s.endScope = Except.ok s') :
    ScopeDelta s' = ScopeDelta s - 1 := by
  unfold CheckerState.endScope at h
  split at h
  · simp at h
    subst h
    simp [ScopeDelta]
    push_cast
    omega
  · simp at h

theorem putS_delta {s : CheckerState} {a v : PyVal} {s' : CheckerState}
    (h : s.putS a v = Except.ok s') : ScopeDelta s' = ScopeDelta s := by
  unfold CheckerState.putS at h
  split at h
  · simp at h
    subst h
    rfl
  · simp at h

theorem amapSetS_delta (s : CheckerState) (k : PyVal) (v : PyVal × List PyVal) :
    ScopeDelta (amapSetS s k v) = ScopeDelta s := rfl

theorem visit_id_ok {f : Nat} {a : String} {s : CheckerState} {r}
    (h : visit f (Node.id a) s = Except.ok r) : r = (PyVal.str a, Node.id a, s) := by
  cases f with
  | zero => simp [visit] at h
  | succ f => simp [visit] at h; exact h.symm

theorem visit_const_ok {f : Nat} {ty v : String} {s : CheckerState} {r}
    (h : visit f (Node.constant ty v) s = Except.ok r) :
    r = (PyVal.str ty, Node.constant ty v, s) := by
  cases f with
  | zero => simp [visit] at h
  | succ f => simp [visit] at h; exact h.symm

theorem visitOpt_some_id_ok {f : Nat} {a : String} {s : CheckerState} {r}
    (h : visitOpt f (Option.some (Node.id a)) s = Except.ok r) :
    r = (PyVal.str a, Option.some (Node.id a), s) := by
  cases f with
  | zero => simp [visitOpt] at h
  | succ f =>
    simp only [visitOpt] at h
    cases hv : visit f (Node.id a) s with
    | error e => rw [hv] at h; simp [bind, Except.bind] at h
    | ok x =>
      have hx := visit_id_ok hv
      subst hx
      rw [hv] at h
      simp [bind, Except.bind] at h
      exact h.symm

theorem visitVal_node_id_ok {f : Nat} {a : String} {s : CheckerState} {r}
    (h : visitVal f (PyVal.node (Node.id a)) s = Except.ok r) :
    r = (PyVal.str a, s) := by
  cases f with
  | zero => simp [visitVal] at h
  | succ f =>
    simp only [visitVal] at h
    cases hv : visit f (Node.id a) s with
    | error e => rw [hv] at h; simp [bind, Except.bind] at h
    | ok x =>
      have hx := visit_id_ok hv
      subst hx
      rw [hv] at h
      simp [bind, Except.bind] at h
      exact h.symm

theorem tfioc_idconst {m : String} {f : Nat} {e : Node} {s : CheckerState} {r}
    (he : (isID e || isConstant e) = true)
    (h : typeFromIdOrConst m f e s = Except.ok r) : r.2.1 = e ∧ r.2.2 = s := by
  cases f with
  | zero => simp [typeFromIdOrConst] at h
  | succ f =>
    cases e <;> simp [isID, isConstant] at he
    case id nm =>
      simp only [typeFromIdOrConst] at h
      split at h
      · split at h
        · have := Except.ok.inj h
          subst this
          exact ⟨rfl, rfl⟩
        · simp at h
      · simp at h
    case constant ty v =>
      simp only [typeFromIdOrConst] at h
      have := Except.ok.inj h
      subst this
      exact ⟨rfl, rfl⟩

theorem bind_ok_iff {α β : Type} {e : Except Err α} {f : α → Except Err β} {b : β} :
    (e >>= f) = Except.ok b ↔ ∃ a, e = Except.ok a ∧ f a = Except.ok b := by
  cases e <;> simp [bind, Except.bind]

theorem visitVal_none_not_ok {f : Nat} {s : CheckerState} {r}
    (h : visitVal f PyVal.none s = Except.ok r) : False := by
  cases f <;> simp [visitVal] at h


theorem netInvariant : ∀ fuel : Nat,
    (∀ t s v t' s', wf t = true → visit fuel t s = Except.ok (v, t', s') →
       ScopeDelta s' = ScopeDelta s + netScopes t ∧ shapeOk t v t')
  ∧ (∀ ns s ns' s', wfList ns = true → visitEach fuel ns s = Except.ok (ns', s') →
       ScopeDelta s' = ScopeDelta s + netList ns)
  ∧ (∀ o s v o' s', wfOpt o = true → visitOpt fuel o s = Except.ok (v, o', s') →
       ScopeDelta s' = ScopeDelta s + netOpt o)
  ∧ (∀ m look s v look' s', wf look = true →
       typeFromIdOrConst m fuel look s = Except.ok (v, look', s') →
       ScopeDelta s' = ScopeDelta s + netScopes look)
  ∧ (∀ c es s es' s', (es.all fun e => isID e || isConstant e) = true →
       initLoop fuel c es s = Except.ok (es', s') → s' = s) := by
  intro fuel
  induction fuel with
  | zero =>
    refine ⟨?_, ?_, ?_, ?_, ?_⟩
    · intro t s v t' s' _ h; simp [visit] at h
    · intro ns s ns' s' _ h; simp [visitEach] at h
    · intro o s v o' s' _ h; simp [visitOpt] at h
    · intro m look s v look' s' _ h; simp [typeFromIdOrConst] at h
    · intro c es s es' s' _ h; simp [initLoop] at h
  | succ fuel ih =>
    obtain ⟨ihV, ihE, ihO, ihT, ihI⟩ := ih
    refine ⟨?_, ?_, ?_, ?_, ?_⟩
    · intro t s v t' s' hwf h
      cases t with
      | program gdecls =>
        simp only [visit] at h
        rw [bind_ok_iff] at h
        obtain ⟨⟨gs2, s2⟩, he, h⟩ := h
        try simp only [] at h
        rw [bind_ok_iff] at h
        obtain ⟨s3, hend, h⟩ := h
        try simp only [] at h
        simp only [Except.ok.injEq, Prod.mk.injEq] at h
        obtain ⟨rfl, rfl, rfl⟩ := h
        have d1 := ihE _ _ _ _ (by simpa [wf] using hwf) he
        have d2 : ScopeDelta s3 = ScopeDelta s2 - 1 := endScope_delta hend
        have d3 := ScopeDelta_beginScope s
        refine ⟨?_, trivial⟩
        simp only [netScopes]
        omega
      | globalDecl decls =>
        simp only [visit] at h
        rw [bind_ok_iff] at h
        obtain ⟨⟨ds2, s1⟩, he, h⟩ := h
        try simp only [] at h
        simp only [Except.ok.injEq, Prod.mk.injEq] at h
        obtain ⟨rfl, rfl, rfl⟩ := h
        have d1 := ihE _ _ _ _ (by simpa [wf] using hwf) he
        refine ⟨?_, trivial⟩
        simp only [netScopes]
        omega
      | decl nm ty ini =>
        simp only [visit] at h
        cases ty with
        | none =>
          simp only [Except.ok.injEq, Prod.mk.injEq] at h
          obtain ⟨rfl, rfl, rfl⟩ := h
          exact ⟨by simp [netScopes], trivial⟩
        | some tyN =>
          try simp only [] at h
          have hwf2 : wf tyN = true ∧ wfOpt ini = true := by
            simpa [wf, wfOpt, Bool.and_eq_true] using hwf
          cases hA : isArrayDecl tyN with
          | true =>
            rw [if_pos hA] at h
            rw [bind_ok_iff] at h
            obtain ⟨⟨v1, tyN3, s2⟩, hv, h⟩ := h
            try simp only [] at h
            rw [bind_ok_iff] at h
            obtain ⟨entry, hentry, h⟩ := h
            try simp only [] at h
            rw [except_bind_ok] at h
            try simp only [] at h
            have d1 := (ihV _ _ _ _ _ hwf2.1 hv).1
            cases ini with
            | none =>
              try simp only [] at h
              simp only [Except.ok.injEq, Prod.mk.injEq] at h
              obtain ⟨rfl, rfl, rfl⟩ := h
              refine ⟨?_, trivial⟩
              simp [netScopes, hA]
              omega
            | some i =>
              try simp only [] at h
              rw [bind_ok_iff] at h
              obtain ⟨⟨iv, i2, s3⟩, hvi, h⟩ := h
              try simp only [] at h
              have d2 := (ihV _ _ _ _ _ (by simpa [wfOpt] using hwf2.2) hvi).1
              split at h
              · simp only [Except.ok.injEq, Prod.mk.injEq] at h
                obtain ⟨rfl, rfl, rfl⟩ := h
                refine ⟨?_, trivial⟩
                simp [netScopes, hA]
                omega
              · simp at h
          | false =>
            rw [if_neg (by simp [hA])] at h
            cases hF : isFuncDecl tyN with
            | true =>
              rw [if_pos hF] at h
              rw [bind_ok_iff] at h
              obtain ⟨⟨v1, tyN3, s2⟩, hv, h⟩ := h
              try simp only [] at h
              rw [except_bind_ok] at h
              try simp only [] at h
              have d1 := (ihV _ _ _ _ _ hwf2.1 hv).1
              cases ini with
              | none =>
                try simp only [] at h
                simp only [Except.ok.injEq, Prod.mk.injEq] at h
                obtain ⟨rfl, rfl, rfl⟩ := h
                refine ⟨?_, trivial⟩
                simp [netScopes, hA, hF]
                omega
              | some i =>
                try simp only [] at h
                rw [bind_ok_iff] at h
                obtain ⟨⟨iv, i2, s3⟩, hvi, h⟩ := h
                try simp only [] at h
                have d2 := (ihV _ _ _ _ _ (by simpa [wfOpt] using hwf2.2) hvi).1
                split at h
                · simp only [Except.ok.injEq, Prod.mk.injEq] at h
                  obtain ⟨rfl, rfl, rfl⟩ := h
                  refine ⟨?_, trivial⟩
                  simp [netScopes, hA, hF]
                  omega
                · simp at h
            | false =>
              rw [if_neg (by simp [hF])] at h
              cases hV : isVarDecl tyN with
              | true =>
                rw [if_pos hV] at h
                rw [bind_ok_iff] at h
                obtain ⟨⟨v1, tyN3, s2⟩, hv, h⟩ := h
                try simp only [] at h
                rw [except_bind_ok] at h
                try simp only [] at h
                have d1 := (ihV _ _ _ _ _ hwf2.1 hv).1
                cases ini with
                | none =>
                  try simp only [] at h
                  simp only [Except.ok.injEq, Prod.mk.injEq] at h
                  obtain ⟨rfl, rfl, rfl⟩ := h
                  refine ⟨?_, trivial⟩
                  simp [netScopes, hA, hF, hV]
                  omega
                | some i =>
                  try simp only [] at h
                  rw [bind_ok_iff] at h
                  obtain ⟨⟨iv, i2, s3⟩, hvi, h⟩ := h
                  try simp only [] at h
                  have d2 := (ihV _ _ _ _ _ (by simpa [wfOpt] using hwf2.2) hvi).1
                  split at h
                  · simp only [Except.ok.injEq, Prod.mk.injEq] at h
                    obtain ⟨rfl, rfl, rfl⟩ := h
                    refine ⟨?_, trivial⟩
                    simp [netScopes, hA, hF, hV]
                    omega
                  · simp at h
              | false =>
                rw [if_neg (by simp [hV])] at h
                rw [except_bind_ok] at h
                try simp only [] at h
                cases ini with
                | none =>
                  try simp only [] at h
                  simp only [Except.ok.injEq, Prod.mk.injEq] at h
                  obtain ⟨rfl, rfl, rfl⟩ := h
                  refine ⟨?_, trivial⟩
                  simp [netScopes, hA, hF, hV]
                | some i =>
                  try simp only [] at h
                  rw [bind_ok_iff] at h
                  obtain ⟨⟨iv, i2, s3⟩, hvi, h⟩ := h
                  try simp only [] at h
                  simp at h
      | varDecl nmF tyF =>
        have hw := hwf
        simp only [wf, Bool.and_eq_true] at hw
        obtain ⟨x, rfl⟩ : ∃ x, nmF = Option.some (Node.id x) := by
          have h1 := hw.1
          cases nmF with
          | none => simp at h1
          | some n => cases n <;> simp at h1 <;> exact ⟨_, rfl⟩
        simp only [visit] at h
        rw [bind_ok_iff] at h
        obtain ⟨⟨nv, nmF2, s1⟩, hv1, h⟩ := h
        try simp only [] at h
        have e1 := visitOpt_some_id_ok hv1
        simp only [Prod.mk.injEq] at e1
        obtain ⟨rfl, rfl, rfl⟩ := e1
        rw [bind_ok_iff] at h
        obtain ⟨⟨tv, tyF2, s2⟩, hv2, h⟩ := h
        try simp only [] at h
        rw [bind_ok_iff] at h
        obtain ⟨s3, hput, h⟩ := h
        try simp only [] at h
        simp only [Except.ok.injEq, Prod.mk.injEq] at h
        obtain ⟨rfl, rfl, rfl⟩ := h
        have d2 := ihO _ _ _ _ _ hw.2 hv2
        have d3 : ScopeDelta s3 = ScopeDelta s2 := putS_delta hput
        refine ⟨?_, ⟨tyF2, rfl⟩⟩
        simp only [netScopes, netOpt]
        omega
      | arrayDecl tyO dim =>
        simp only [visit] at h
        cases tyO with
        | none =>
          simp only [Except.ok.injEq, Prod.mk.injEq] at h
          obtain ⟨rfl, rfl, rfl⟩ := h
          exact ⟨by simp [netScopes], Or.inl rfl⟩
        | some tyN =>
          try simp only [] at h
          have hwft : wf tyN = true := by simpa [wf, wfOpt] using hwf
          cases hV : isVarDecl tyN with
          | true =>
            rw [if_pos hV] at h
            rw [bind_ok_iff] at h
            obtain ⟨⟨av, tyN2, s1⟩, hv, h⟩ := h
            try simp only [] at h
            obtain ⟨nmV, tyV, rfl⟩ : ∃ a b, tyN = Node.varDecl a b := by
              cases tyN <;> simp [isVarDecl] at hV
              exact ⟨_, _, rfl⟩
            have dsh := ihV _ _ _ _ _ hwft hv
            obtain ⟨x, rfl⟩ : ∃ x, nmV = Option.some (Node.id x) := by
              have hwt := hwft
              simp only [wf, Bool.and_eq_true] at hwt
              have h1 := hwt.1
              cases nmV with
              | none => simp at h1
              | some n => cases n <;> simp at h1 <;> exact ⟨_, rfl⟩
            obtain ⟨tyV2, rfl⟩ := dsh.2
            try simp only [varDeclNameAttr] at h
            rw [bind_ok_iff] at h
            obtain ⟨⟨k1, o1, s2⟩, hk1, h⟩ := h
            try simp only [] at h
            have e1 := visitOpt_some_id_ok hk1
            simp only [Prod.mk.injEq] at e1
            obtain ⟨rfl, rfl, rfl⟩ := e1
            rw [bind_ok_iff] at h
            obtain ⟨s3, hput, h⟩ := h
            try simp only [] at h
            rw [bind_ok_iff] at h
            obtain ⟨⟨k2, o2, s4⟩, hk2, h⟩ := h
            try simp only [] at h
            have e2 := visitOpt_some_id_ok hk2
            simp only [Prod.mk.injEq] at e2
            obtain ⟨rfl, rfl, rfl⟩ := e2
            simp only [Except.ok.injEq, Prod.mk.injEq] at h
            obtain ⟨rfl, rfl, rfl⟩ := h
            have d1 := dsh.1
            simp only [netScopes, netOpt] at d1
            have d3 := putS_delta hput
            refine ⟨?_, Or.inr ⟨x, by simp [pyOfOptNode, varDeclNameAttr]⟩⟩
            rw [amapSetS_delta]
            simp [netScopes, netOpt, hV]
            omega
          | false =>
            rw [if_neg (by simp [hV])] at h
            cases hA2 : isArrayDecl tyN with
            | true =>
              rw [if_pos hA2] at h
              rw [bind_ok_iff] at h
              obtain ⟨⟨nv, tyN2, s1⟩, hv, h⟩ := h
              try simp only [] at h
              obtain ⟨tyI, dimI, rfl⟩ : ∃ a b, tyN = Node.arrayDecl a b := by
                cases tyN <;> simp [isArrayDecl] at hA2
                exact ⟨_, _, rfl⟩
              have dsh := ihV _ _ _ _ _ hwft hv
              have hshape : nv = PyVal.none ∨ ∃ y, nv = PyVal.node (Node.id y) := dsh.2
              rcases hshape with rfl | ⟨y, rfl⟩
              · rw [bind_ok_iff] at h
                obtain ⟨⟨k1, s2⟩, hk1, h⟩ := h
                exact absurd hk1 (fun hk => visitVal_none_not_ok hk)
              · rw [bind_ok_iff] at h
                obtain ⟨⟨k1, s2⟩, hk1, h⟩ := h
                try simp only [] at h
                have e1 := visitVal_node_id_ok hk1
                simp only [Prod.mk.injEq] at e1
                obtain ⟨rfl, rfl⟩ := e1
                rw [bind_ok_iff] at h
                obtain ⟨entry, hget, h⟩ := h
                try simp only [] at h
                have d1 := dsh.1
                split at h
                · rw [bind_ok_iff] at h
                  obtain ⟨⟨k2, s2b⟩, hk2, h⟩ := h
                  try simp only [] at h
                  have e2 := visitVal_node_id_ok hk2
                  simp only [Prod.mk.injEq] at e2
                  obtain ⟨rfl, rfl⟩ := e2
                  rw [bind_ok_iff] at h
                  obtain ⟨s3, hput, h⟩ := h
                  try simp only [] at h
                  have d3 := putS_delta hput
                  rw [bind_ok_iff] at h
                  obtain ⟨⟨k3, s4⟩, hk3, h⟩ := h
                  try simp only [] at h
                  have e3 := visitVal_node_id_ok hk3
                  simp only [Prod.mk.injEq] at e3
                  obtain ⟨rfl, rfl⟩ := e3
                  rw [bind_ok_iff] at h
                  obtain ⟨entry2, hget2, h⟩ := h
                  try simp only [] at h
                  simp only [Except.ok.injEq, Prod.mk.injEq] at h
                  obtain ⟨rfl, rfl, rfl⟩ := h
                  refine ⟨?_, Or.inr ⟨y, rfl⟩⟩
                  rw [amapSetS_delta]
                  simp [netScopes, hV, hA2]
                  omega
                · rw [except_bind_ok] at h
                  try simp only [] at h
                  rw [bind_ok_iff] at h
                  obtain ⟨⟨k3, s4⟩, hk3, h⟩ := h
                  try simp only [] at h
                  have e3 := visitVal_node_id_ok hk3
                  simp only [Prod.mk.injEq] at e3
                  obtain ⟨rfl, rfl⟩ := e3
                  rw [bind_ok_iff] at h
                  obtain ⟨entry2, hget2, h⟩ := h
                  try simp only [] at h
                  simp only [Except.ok.injEq, Prod.mk.injEq] at h
                  obtain ⟨rfl, rfl, rfl⟩ := h
                  refine ⟨?_, Or.inr ⟨y, rfl⟩⟩
                  rw [amapSetS_delta]
                  simp [netScopes, hV, hA2]
                  omega
            | false =>
              rw [if_neg (by simp [hA2])] at h
              simp only [Except.ok.injEq, Prod.mk.injEq] at h
              obtain ⟨rfl, rfl, rfl⟩ := h
              refine ⟨?_, Or.inl rfl⟩
              simp [netScopes, hV, hA2]
      | funcDecl args tyO =>
        simp only [visit] at h
        cases tyO with
        | none => simp at h
        | some tyN =>
          try simp only [] at h
          cases hV : isVarDecl tyN with
          | false =>
            rw [if_neg (by simp [hV])] at h
            simp at h
          | true =>
            rw [if_pos hV] at h
            rw [bind_ok_iff] at h
            obtain ⟨⟨node_type, tyN2, s1⟩, hv, h⟩ := h
            try simp only [] at h
            cases args with
            | some a0 => simp at h
            | none =>
              try simp only [] at h
              simp only [Except.ok.injEq, Prod.mk.injEq] at h
              obtain ⟨rfl, rfl, rfl⟩ := h
              have d1 := (ihV _ _ _ _ _ (by simpa [wf, wfOpt] using hwf) hv).1
              have dB := ScopeDelta_beginScope s1
              refine ⟨?_, trivial⟩
              simp [netScopes, hV]
              omega
      | funcDef dcl ps body =>
        have hwf3 : wfOpt dcl = true ∧ wfList ps = true ∧ wf body = true := by
          simpa [wf, Bool.and_eq_true, and_assoc] using hwf
        simp only [visit] at h
        cases dcl with
        | some d =>
          try simp only [] at h
          rw [bind_ok_iff] at h
          obtain ⟨⟨vd, d2, s1b⟩, hvd, h⟩ := h
          try simp only [] at h
          rw [except_bind_ok] at h
          try simp only [] at h
          rw [bind_ok_iff] at h
          obtain ⟨⟨ps2, s2⟩, hps, h⟩ := h
          try simp only [] at h
          rw [bind_ok_iff] at h
          obtain ⟨⟨vb, body2, s3⟩, hb, h⟩ := h
          try simp only [] at h
          rw [bind_ok_iff] at h
          obtain ⟨s4, hend, h⟩ := h
          try simp only [] at h
          simp only [Except.ok.injEq, Prod.mk.injEq] at h
          obtain ⟨rfl, rfl, rfl⟩ := h
          have d1 := (ihV _ _ _ _ _ (by simpa [wfOpt] using hwf3.1) hvd).1
          have d2' := ihE _ _ _ _ hwf3.2.1 hps
          have d3 := (ihV _ _ _ _ _ hwf3.2.2 hb).1
          have d4 : ScopeDelta s4 = ScopeDelta s3 - 1 := endScope_delta hend
          refine ⟨?_, trivial⟩
          simp only [netScopes, netOpt]
          omega
        | none =>
          try simp only [] at h
          rw [except_bind_ok] at h
          try simp only [] at h
          rw [bind_ok_iff] at h
          obtain ⟨⟨ps2, s2⟩, hps, h⟩ := h
          try simp only [] at h
          rw [bind_ok_iff] at h
          obtain ⟨⟨vb, body2, s3⟩, hb, h⟩ := h
          try simp only [] at h
          rw [bind_ok_iff] at h
          obtain ⟨s4, hend, h⟩ := h
          try simp only [] at h
          simp only [Except.ok.injEq, Prod.mk.injEq] at h
          obtain ⟨rfl, rfl, rfl⟩ := h
          have d2' := ihE _ _ _ _ hwf3.2.1 hps
          have d3 := (ihV _ _ _ _ _ hwf3.2.2 hb).1
          have d4 : ScopeDelta s4 = ScopeDelta s3 - 1 := endScope_delta hend
          refine ⟨?_, trivial⟩
          simp only [netScopes, netOpt]
          omega
      | typeNode tys =>
        simp only [visit] at h
        cases tys with
        | none =>
          simp only [Except.ok.injEq, Prod.mk.injEq] at h
          obtain ⟨rfl, rfl, rfl⟩ := h
          exact ⟨by simp [netScopes], trivial⟩
        | some l =>
          cases l with
          | nil => simp at h
          | cons t0 rest =>
            simp only [Except.ok.injEq, Prod.mk.injEq] at h
            obtain ⟨rfl, rfl, rfl⟩ := h
            exact ⟨by simp [netScopes], trivial⟩
      | constant ty cv =>
        simp only [visit] at h
        simp only [Except.ok.injEq, Prod.mk.injEq] at h
        obtain ⟨rfl, rfl, rfl⟩ := h
        exact ⟨by simp [netScopes], trivial⟩
      | id nm =>
        simp only [visit] at h
        simp only [Except.ok.injEq, Prod.mk.injEq] at h
        obtain ⟨rfl, rfl, rfl⟩ := h
        exact ⟨by simp [netScopes], trivial⟩
      | binaryOp op l r =>
        have hwf2 : wf l = true ∧ wf r = true := by
          simpa [wf, Bool.and_eq_true] using hwf
        simp only [visit] at h
        rw [bind_ok_iff] at h
        obtain ⟨⟨left, l2, s1⟩, hl, h⟩ := h
        try simp only [] at h
        rw [bind_ok_iff] at h
        obtain ⟨⟨right, r2, s2⟩, hr, h⟩ := h
        try simp only [] at h
        have d1 := ihT _ _ _ _ _ _ hwf2.1 hl
        have d2 := ihT _ _ _ _ _ _ hwf2.2 hr
        split at h
        · rw [bind_ok_iff] at h
          obtain ⟨tt, htt, h⟩ := h
          try simp only [] at h
          split at h
          · simp only [Except.ok.injEq, Prod.mk.injEq] at h
            obtain ⟨rfl, rfl, rfl⟩ := h
            refine ⟨?_, trivial⟩
            simp only [netScopes]
            omega
          · simp at h
        · simp at h
      | unaryOp op e =>
        simp only [visit] at h
        rw [bind_ok_iff] at h
        obtain ⟨⟨nv, e2, s1⟩, hv, h⟩ := h
        try simp only [] at h
        rw [bind_ok_iff] at h
        obtain ⟨vt, hlk, h⟩ := h
        try simp only [] at h
        rw [bind_ok_iff] at h
        obtain ⟨tt, htt, h⟩ := h
        try simp only [] at h
        split at h
        · simp only [Except.ok.injEq, Prod.mk.injEq] at h
          obtain ⟨rfl, rfl, rfl⟩ := h
          have d1 := (ihV _ _ _ _ _ (by simpa [wf] using hwf) hv).1
          refine ⟨?_, trivial⟩
          simp only [netScopes]
          omega
        · simp at h
      | assignment op l r =>
        have hwf2 : wf l = true ∧ wf r = true := by
          simpa [wf, Bool.and_eq_true] using hwf
        simp only [visit] at h
        rw [bind_ok_iff] at h
        obtain ⟨⟨lv, l2, s1⟩, hvl, h⟩ := h
        try simp only [] at h
        rw [bind_ok_iff] at h
        obtain ⟨left, hlk, h⟩ := h
        try simp only [] at h
        have d1 := (ihV _ _ _ _ _ hwf2.1 hvl).1
        split at h
        · split at h
          · rw [bind_ok_iff] at h
            obtain ⟨⟨rv, r3, s2b⟩, hv2, h⟩ := h
            try simp only [] at h
            rw [bind_ok_iff] at h
            obtain ⟨rt, hlk2, h⟩ := h
            try simp only [] at h
            rw [except_bind_ok] at h
            try simp only [] at h
            have d2 := (ihV _ _ _ _ _ hwf2.2 hv2).1
            split at h
            · rw [bind_ok_iff] at h
              obtain ⟨tt, htt, h⟩ := h
              try simp only [] at h
              split at h
              · simp only [Except.ok.injEq, Prod.mk.injEq] at h
                obtain ⟨rfl, rfl, rfl⟩ := h
                refine ⟨?_, trivial⟩
                simp only [netScopes]
                omega
              · simp at h
            · simp at h
          · rw [bind_ok_iff] at h
            obtain ⟨⟨right, r2, s2⟩, hrr, h⟩ := h
            try simp only [] at h
            have d2 := (ihV _ _ _ _ _ hwf2.2 hrr).1
            split at h
            · rw [bind_ok_iff] at h
              obtain ⟨tt, htt, h⟩ := h
              try simp only [] at h
              split at h
              · simp only [Except.ok.injEq, Prod.mk.injEq] at h
                obtain ⟨rfl, rfl, rfl⟩ := h
                refine ⟨?_, trivial⟩
                simp only [netScopes]
                omega
              · simp at h
            · simp at h
        · simp at h
      | cast tyN tyS e =>
        simp only [visit] at h
        rw [bind_ok_iff] at h
        obtain ⟨⟨ev, e2, s1⟩, hv, h⟩ := h
        try simp only [] at h
        rw [bind_ok_iff] at h
        obtain ⟨ta, hta, h⟩ := h
        try simp only [] at h
        simp only [Except.ok.injEq, Prod.mk.injEq] at h
        obtain ⟨rfl, rfl, rfl⟩ := h
        have d1 := (ihV _ _ _ _ _ (by simpa [wf] using hwf) hv).1
        refine ⟨?_, trivial⟩
        simp only [netScopes]
        omega
      | exprList es =>
        simp only [visit] at h
        rw [bind_ok_iff] at h
        obtain ⟨⟨es2, s1⟩, he, h⟩ := h
        try simp only [] at h
        simp only [Except.ok.injEq, Prod.mk.injEq] at h
        obtain ⟨rfl, rfl, rfl⟩ := h
        have d1 := ihE _ _ _ _ (by simpa [wf] using hwf) he
        refine ⟨?_, trivial⟩
        simp only [netScopes]
        omega
      | funcCall nmF args =>
        cases nmF <;> simp [wf, isID] at hwf
        rename_i a
        simp only [visit] at h
        rw [bind_ok_iff] at h
        obtain ⟨⟨nv, nm2, s1⟩, hv1, h⟩ := h
        try simp only [] at h
        have e1 := visit_id_ok hv1
        simp only [Prod.mk.injEq] at e1
        obtain ⟨rfl, rfl, rfl⟩ := e1
        split at h
        · cases args with
          | some a0 =>
            try simp only [] at h
            split at h
            · rename_i hida
              cases a0 <;> simp [isID] at hida
              rename_i b
              rw [bind_ok_iff] at h
              obtain ⟨⟨va, a2, s2b⟩, hva, h⟩ := h
              try simp only [] at h
              have e2 := visit_id_ok hva
              simp only [Prod.mk.injEq] at e2
              obtain ⟨rfl, rfl, rfl⟩ := e2
              rw [except_bind_ok] at h
              try simp only [] at h
              rw [bind_ok_iff] at h
              obtain ⟨⟨nv2, nm3, s3⟩, hv2, h⟩ := h
              try simp only [] at h
              have e3 := visit_id_ok hv2
              simp only [Prod.mk.injEq] at e3
              obtain ⟨rfl, rfl, rfl⟩ := e3
              rw [bind_ok_iff] at h
              obtain ⟨rt, hlk, h⟩ := h
              try simp only [] at h
              simp only [Except.ok.injEq, Prod.mk.injEq] at h
              obtain ⟨rfl, rfl, rfl⟩ := h
              exact ⟨by simp [netScopes], trivial⟩
            · rw [except_bind_ok] at h
              try simp only [] at h
              rw [bind_ok_iff] at h
              obtain ⟨⟨nv2, nm3, s3⟩, hv2, h⟩ := h
              try simp only [] at h
              have e3 := visit_id_ok hv2
              simp only [Prod.mk.injEq] at e3
              obtain ⟨rfl, rfl, rfl⟩ := e3
              rw [bind_ok_iff] at h
              obtain ⟨rt, hlk, h⟩ := h
              try simp only [] at h
              simp only [Except.ok.injEq, Prod.mk.injEq] at h
              obtain ⟨rfl, rfl, rfl⟩ := h
              exact ⟨by simp [netScopes], trivial⟩
          | none =>
            try simp only [] at h
            rw [except_bind_ok] at h
            try simp only [] at h
            rw [bind_ok_iff] at h
            obtain ⟨⟨nv2, nm3, s3⟩, hv2, h⟩ := h
            try simp only [] at h
            have e3 := visit_id_ok hv2
            simp only [Prod.mk.injEq] at e3
            obtain ⟨rfl, rfl, rfl⟩ := e3
            rw [bind_ok_iff] at h
            obtain ⟨rt, hlk, h⟩ := h
            try simp only [] at h
            simp only [Except.ok.injEq, Prod.mk.injEq] at h
            obtain ⟨rfl, rfl, rfl⟩ := h
            exact ⟨by simp [netScopes], trivial⟩
        · simp at h
      | arrayRef nmF sub =>
        have hwfc : isID nmF = true ∧ (if isArrayRef sub then wf sub else true) = true := by
          simpa [wf, Bool.and_eq_true] using hwf
        have hnm := hwfc.1
        have hsub := hwfc.2
        cases nmF <;> simp [isID] at hnm
        rename_i a
        simp only [visit] at h
        rw [bind_ok_iff] at h
        obtain ⟨⟨nv, nm2, s1⟩, hv1, h⟩ := h
        try simp only [] at h
        have e1 := visit_id_ok hv1
        simp only [Prod.mk.injEq] at e1
        obtain ⟨rfl, rfl, rfl⟩ := e1
        rw [bind_ok_iff] at h
        obtain ⟨array, hlk, h⟩ := h
        try simp only [] at h
        split at h
        · split at h
          · simp only [Except.ok.injEq, Prod.mk.injEq] at h
            obtain ⟨rfl, rfl, rfl⟩ := h
            exact ⟨by simp [netScopes], trivial⟩
          · split at h
            · rename_i hcA
              rw [bind_ok_iff] at h
              obtain ⟨⟨cv, sub3, s2b⟩, hv2, h⟩ := h
              try simp only [] at h
              rw [if_pos hcA] at hsub
              have dd := (ihV _ _ _ _ _ hsub hv2).1
              have hns : netScopes sub = 0 := by
                cases sub <;> simp [isArrayRef] at hcA
                simp [netScopes]
              rw [hns] at dd
              split at h
              · rw [except_bind_ok] at h
                try simp only [] at h
                rw [bind_ok_iff] at h
                obtain ⟨⟨nv2, nm3, s4⟩, hv3, h⟩ := h
                try simp only [] at h
                have e3 := visit_id_ok hv3
                simp only [Prod.mk.injEq] at e3
                obtain ⟨rfl, rfl, rfl⟩ := e3
                simp only [Except.ok.injEq, Prod.mk.injEq] at h
                obtain ⟨rfl, rfl, rfl⟩ := h
                refine ⟨?_, trivial⟩
                simp only [netScopes]
                omega
              · simp [except_bind_error] at h
            · split at h
              · rename_i hcI
                cases sub <;> simp [isID] at hcI
                rename_i b
                rw [bind_ok_iff] at h
                obtain ⟨⟨sv, sub3, s2b⟩, hv2, h⟩ := h
                try simp only [] at h
                have e2 := visit_id_ok hv2
                simp only [Prod.mk.injEq] at e2
                obtain ⟨rfl, rfl, rfl⟩ := e2
                rw [bind_ok_iff] at h
                obtain ⟨cv2, hlk2, h⟩ := h
                try simp only [] at h
                split at h
                · rw [except_bind_ok] at h
                  try simp only [] at h
                  rw [bind_ok_iff] at h
                  obtain ⟨⟨nv2, nm3, s4⟩, hv3, h⟩ := h
                  try simp only [] at h
                  have e3 := visit_id_ok hv3
                  simp only [Prod.mk.injEq] at e3
                  obtain ⟨rfl, rfl, rfl⟩ := e3
                  simp only [Except.ok.injEq, Prod.mk.injEq] at h
                  obtain ⟨rfl, rfl, rfl⟩ := h
                  exact ⟨by simp [netScopes], trivial⟩
                · simp [except_bind_error] at h
              · split at h
                · rename_i hcC
                  cases sub <;> simp [isConstant] at hcC
                  rename_i cty cval
                  rw [bind_ok_iff] at h
                  obtain ⟨⟨cv, sub3, s2b⟩, hv2, h⟩ := h
                  try simp only [] at h
                  have e2 := visit_const_ok hv2
                  simp only [Prod.mk.injEq] at e2
                  obtain ⟨rfl, rfl, rfl⟩ := e2
                  split at h
                  · rw [except_bind_ok] at h
                    try simp only [] at h
                    rw [bind_ok_iff] at h
                    obtain ⟨⟨nv2, nm3, s4⟩, hv3, h⟩ := h
                    try simp only [] at h
                    have e3 := visit_id_ok hv3
                    simp only [Prod.mk.injEq] at e3
                    obtain ⟨rfl, rfl, rfl⟩ := e3
                    simp only [Except.ok.injEq, Prod.mk.injEq] at h
                    obtain ⟨rfl, rfl, rfl⟩ := h
                    exact ⟨by simp [netScopes], trivial⟩
                  · simp [except_bind_error] at h
                · rw [except_bind_ok] at h
                  try simp only [] at h
                  rw [bind_ok_iff] at h
                  obtain ⟨⟨nv2, nm3, s4⟩, hv3, h⟩ := h
                  try simp only [] at h
                  have e3 := visit_id_ok hv3
                  simp only [Prod.mk.injEq] at e3
                  obtain ⟨rfl, rfl, rfl⟩ := e3
                  simp only [Except.ok.injEq, Prod.mk.injEq] at h
                  obtain ⟨rfl, rfl, rfl⟩ := h
                  exact ⟨by simp [netScopes], trivial⟩
        · simp at h
      | compound items =>
        simp only [visit] at h
        rw [bind_ok_iff] at h
        obtain ⟨⟨items2, s1⟩, he, h⟩ := h
        try simp only [] at h
        simp only [Except.ok.injEq, Prod.mk.injEq] at h
        obtain ⟨rfl, rfl, rfl⟩ := h
        have d1 := ihE _ _ _ _ (by simpa [wf] using hwf) he
        refine ⟨?_, trivial⟩
        simp only [netScopes]
        omega
      | ifStmt c tb e =>
        have hwf3 : wf c = true ∧ wf tb = true ∧ wfOpt e = true := by
          simpa [wf, Bool.and_eq_true, and_assoc] using hwf
        simp only [visit] at h
        rw [bind_ok_iff] at h
        obtain ⟨⟨vc, c2, s1⟩, hc, h⟩ := h
        try simp only [] at h
        rw [bind_ok_iff] at h
        obtain ⟨⟨vt, t2, s2⟩, ht, h⟩ := h
        try simp only [] at h
        have d1 := (ihV _ _ _ _ _ hwf3.1 hc).1
        have d2 := (ihV _ _ _ _ _ hwf3.2.1 ht).1
        cases e with
        | some eb =>
          try simp only [] at h
          rw [bind_ok_iff] at h
          obtain ⟨⟨ve, e2, s3⟩, heb, h⟩ := h
          try simp only [] at h
          simp only [Except.ok.injEq, Prod.mk.injEq] at h
          obtain ⟨rfl, rfl, rfl⟩ := h
          have d3 := (ihV _ _ _ _ _ (by simpa [wfOpt] using hwf3.2.2) heb).1
          refine ⟨?_, trivial⟩
          simp only [netScopes, netOpt]
          omega
        | none =>
          try simp only [] at h
          simp only [Except.ok.injEq, Prod.mk.injEq] at h
          obtain ⟨rfl, rfl, rfl⟩ := h
          refine ⟨?_, trivial⟩
          simp only [netScopes, netOpt]
          omega
      | whileStmt c b =>
        have hwf2 : wf c = true ∧ wf b = true := by
          simpa [wf, Bool.and_eq_true] using hwf
        simp only [visit] at h
        rw [bind_ok_iff] at h
        obtain ⟨⟨vc, c2, s1⟩, hc, h⟩ := h
        try simp only [] at h
        rw [bind_ok_iff] at h
        obtain ⟨⟨vb, b2, s2⟩, hb, h⟩ := h
        try simp only [] at h
        simp only [Except.ok.injEq, Prod.mk.injEq] at h
        obtain ⟨rfl, rfl, rfl⟩ := h
        have d1 := (ihV _ _ _ _ _ hwf2.1 hc).1
        have d2 := (ihV _ _ _ _ _ hwf2.2 hb).1
        refine ⟨?_, trivial⟩
        simp only [netScopes]
        omega
      | forStmt ini c nx b =>
        have hwf4 : wfOpt ini = true ∧ wfOpt c = true ∧ wfOpt nx = true ∧ wf b = true := by
          simpa [wf, Bool.and_eq_true, and_assoc] using hwf
        simp only [visit] at h
        rw [bind_ok_iff] at h
        obtain ⟨⟨vi, ini2, s1⟩, hi, h⟩ := h
        try simp only [] at h
        rw [bind_ok_iff] at h
        obtain ⟨⟨vc, c2, s2⟩, hc, h⟩ := h
        try simp only [] at h
        rw [bind_ok_iff] at h
        obtain ⟨⟨vn, nx2, s3⟩, hn, h⟩ := h
        try simp only [] at h
        rw [bind_ok_iff] at h
        obtain ⟨⟨vb, b2, s4⟩, hb, h⟩ := h
        try simp only [] at h
        rw [bind_ok_iff] at h
        obtain ⟨s5, hend, h⟩ := h
        try simp only [] at h
        simp only [Except.ok.injEq, Prod.mk.injEq] at h
        obtain ⟨rfl, rfl, rfl⟩ := h
        have d0 := ScopeDelta_beginScope s
        have d1 := ihO _ _ _ _ _ hwf4.1 hi
        have d2 := ihO _ _ _ _ _ hwf4.2.1 hc
        have d3 := ihO _ _ _ _ _ hwf4.2.2.1 hn
        have d4 := (ihV _ _ _ _ _ hwf4.2.2.2 hb).1
        have d5 : ScopeDelta s5 = ScopeDelta s4 - 1 := endScope_delta hend
        refine ⟨?_, trivial⟩
        simp only [netScopes]
        omega
      | declList ds =>
        simp only [visit] at h
        rw [bind_ok_iff] at h
        obtain ⟨⟨ds2, s1⟩, he, h⟩ := h
        try simp only [] at h
        simp only [Except.ok.injEq, Prod.mk.injEq] at h
        obtain ⟨rfl, rfl, rfl⟩ := h
        have d1 := ihE _ _ _ _ (by simpa [wf] using hwf) he
        refine ⟨?_, trivial⟩
        simp only [netScopes]
        omega
      | emptyStatement =>
        simp only [visit] at h
        simp only [Except.ok.injEq, Prod.mk.injEq] at h
        obtain ⟨rfl, rfl, rfl⟩ := h
        exact ⟨by simp [netScopes], trivial⟩
      | assertStmt e =>
        simp only [visit] at h
        rw [bind_ok_iff] at h
        obtain ⟨⟨ve, e2, s1⟩, hv, h⟩ := h
        try simp only [] at h
        simp only [Except.ok.injEq, Prod.mk.injEq] at h
        obtain ⟨rfl, rfl, rfl⟩ := h
        have d1 := (ihV _ _ _ _ _ (by simpa [wf] using hwf) hv).1
        refine ⟨?_, trivial⟩
        simp only [netScopes]
        omega
      | printStmt e =>
        simp only [visit] at h
        cases e with
        | some en =>
          try simp only [] at h
          rw [bind_ok_iff] at h
          obtain ⟨⟨ve, e2, s1⟩, hv, h⟩ := h
          try simp only [] at h
          simp only [Except.ok.injEq, Prod.mk.injEq] at h
          obtain ⟨rfl, rfl, rfl⟩ := h
          have d1 := (ihV _ _ _ _ _ (by simpa [wf, wfOpt] using hwf) hv).1
          refine ⟨?_, trivial⟩
          simp only [netScopes, netOpt]
          omega
        | none =>
          simp only [Except.ok.injEq, Prod.mk.injEq] at h
          obtain ⟨rfl, rfl, rfl⟩ := h
          exact ⟨by simp [netScopes, netOpt], trivial⟩
      | readStmt e =>
        simp only [visit] at h
        cases e with
        | some en =>
          try simp only [] at h
          rw [bind_ok_iff] at h
          obtain ⟨⟨ve, e2, s1⟩, hv, h⟩ := h
          try simp only [] at h
          simp only [Except.ok.injEq, Prod.mk.injEq] at h
          obtain ⟨rfl, rfl, rfl⟩ := h
          have d1 := (ihV _ _ _ _ _ (by simpa [wf, wfOpt] using hwf) hv).1
          refine ⟨?_, trivial⟩
          simp only [netScopes, netOpt]
          omega
        | none =>
          simp only [Except.ok.injEq, Prod.mk.injEq] at h
          obtain ⟨rfl, rfl, rfl⟩ := h
          exact ⟨by simp [netScopes, netOpt], trivial⟩
      | initList es =>
        simp only [visit] at h
        cases es with
        | none =>
          simp only [Except.ok.injEq, Prod.mk.injEq] at h
          obtain ⟨rfl, rfl, rfl⟩ := h
          exact ⟨by simp [netScopes], trivial⟩
        | some l =>
          cases l with
          | nil => simp at h
          | cons e0 rest =>
            have hall : (isID e0 || isConstant e0) = true
                ∧ ((e0 :: rest).all fun e => isID e || isConstant e) = true := by
              have hw := hwf
              simp only [wf, List.all_cons, Bool.and_eq_true] at hw
              refine ⟨hw.1, ?_⟩
              simp only [List.all_cons, Bool.and_eq_true]
              exact hw
            try simp only [] at h
            rw [bind_ok_iff] at h
            obtain ⟨⟨consistency, e02, s1⟩, ht0, h⟩ := h
            try simp only [] at h
            have e0eq := tfioc_idconst hall.1 ht0
            obtain ⟨he0, hs0⟩ := e0eq
            simp only [] at he0 hs0
            rw [he0, hs0] at h
            rw [bind_ok_iff] at h
            obtain ⟨⟨es2, s2⟩, hloop, h⟩ := h
            try simp only [] at h
            have hs2 := ihI _ _ _ _ _ hall.2 hloop
            rw [hs2] at h
            simp only [Except.ok.injEq, Prod.mk.injEq] at h
            obtain ⟨rfl, rfl, rfl⟩ := h
            exact ⟨by simp [netScopes], trivial⟩
    · intro ns s ns' s' hwf h
      cases ns with
      | nil =>
        simp only [visitEach] at h
        have hinj := Except.ok.inj h
        have hs : s = s' := congrArg Prod.snd hinj
        subst hs
        simp [netList]
      | cons n rest =>
        simp only [visitEach] at h
        cases hv : visit fuel n s with
        | error e => rw [hv] at h; simp [bind, Except.bind] at h
        | ok x =>
          obtain ⟨vn, n2, s1⟩ := x
          rw [hv] at h
          simp only [bind, Except.bind] at h
          cases he : visitEach fuel rest s1 with
          | error e => rw [he] at h; simp at h
          | ok y =>
            obtain ⟨ns2, s2⟩ := y
            rw [he] at h
            simp only [] at h
            have hinj := Except.ok.inj h
            have hs : s2 = s' := congrArg Prod.snd hinj
            simp only [wfList, Bool.and_eq_true] at hwf
            have d1 := (ihV _ _ _ _ _ hwf.1 hv).1
            have d2 := ihE _ _ _ _ hwf.2 he
            subst hs
            simp only [netList]
            omega
    · intro o s v o' s' hwf h
      cases o with
      | none => simp [visitOpt] at h
      | some n =>
        simp only [visitOpt] at h
        cases hv : visit fuel n s with
        | error e => rw [hv] at h; simp [bind, Except.bind] at h
        | ok x =>
          obtain ⟨vn, n2, s1⟩ := x
          rw [hv] at h
          simp only [bind, Except.bind] at h
          have hinj := Except.ok.inj h
          have hs : s1 = s' := congrArg (fun p => p.2.2) hinj
          simp only [wfOpt] at hwf
          have d1 := (ihV _ _ _ _ _ hwf hv).1
          subst hs
          simpa [netOpt] using d1
    · intro m look s v look' s' hwf h
      cases look <;>
        try exact (ihV _ _ _ _ _ hwf (by simpa [typeFromIdOrConst] using h)).1
      case id nm =>
        simp only [typeFromIdOrConst] at h
        split at h
        · split at h
          · have hinj := Except.ok.inj h
            have hs : s = s' := congrArg (fun p => p.2.2) hinj
            subst hs
            simp [netScopes]
          · simp at h
        · simp at h
      case constant ty cv =>
        simp only [typeFromIdOrConst] at h
        have hinj := Except.ok.inj h
        have hs : s = s' := congrArg (fun p => p.2.2) hinj
        subst hs
        simp [netScopes]
    · intro c es s es' s' hwf h
      induction es generalizing s es' with
      | nil =>
        simp only [initLoop] at h
        exact (congrArg Prod.snd (Except.ok.inj h)).symm
      | cons e rest ihRest =>
        simp only [List.all_cons, Bool.and_eq_true] at hwf
        simp only [initLoop] at h
        cases ht : typeFromIdOrConst "InitList error: Element not defined" fuel e s with
        | error e2 => rw [ht] at h; simp [bind, Except.bind] at h
        | ok x =>
          obtain ⟨verify, e2, s1⟩ := x
          have hx := tfioc_idconst hwf.1 ht
          have hs1 : s1 = s := hx.2
          rw [ht] at h
          simp only [bind, Except.bind] at h
          split at h
          · cases hloop : initLoop fuel c rest s1 with
            | error e3 => rw [hloop] at h; simp at h
            | ok y =>
              obtain ⟨es2, s2⟩ := y
              rw [hloop] at h
              simp only [] at h
              have hinj := Except.ok.inj h
              have hs : s2 = s' := congrArg Prod.snd hinj
              have := ihI _ _ _ _ _ hwf.2 hloop
              subst hs
              rw [this, hs1]
          · simp at h

theorem set_concat_length {α : Type _} (l : List α) (x y : α) :
    (l ++ [x]).set l.length y = l ++ [y] := by
  induction l with
  | nil => rfl
  | cons a t ih => simp only [List.cons_append, List.length_cons, List.set_cons_succ, ih]

theorem getD_concat_length {α : Type _} (l : List α) (x d : α) :
    (l ++ [x]).getD l.length d = x := by
  induction l with
  | nil => rfl
  | cons a t ih => simpa only [List.cons_append, List.length_cons, List.getD_cons_succ] using ih

/-- If a name misses every frame of the table, the innermost-to-outermost
search finds nothing at any start index inside the stack. -/
theorem lookupAux_none (symtabs : List Frame) (a : PyVal) :
    ∀ j, j < symtabs.length → (∀ fr ∈ symtabs, frameGet fr a = Option.none) →
    lookupAux symtabs a j = Except.ok PyVal.none := by
  intro j
  induction j with
  | zero =>
    intro hj hall
    simp only [lookupAux]
    cases hg : symtabs.get? 0 with
    | none =>
      rw [List.get?_eq_none] at hg
      omega
    | some fr =>
      have hm : fr ∈ symtabs := List.get?_mem hg
      simp [hall fr hm]
  | succ j ih =>
    intro hj hall
    simp only [lookupAux]
    cases hg : symtabs.get? (j+1) with
    | none =>
      rw [List.get?_eq_none] at hg
      omega
    | some fr =>
      have hm : fr ∈ symtabs := List.get?_mem hg
      simp only [hall fr hm]
      exact ih (by omega) hall

/-- `lookup` reports not-found for a name absent from every remaining frame
(the scope counter staying inside the stack, as `begin_scope`/`end_scope`
maintain). -/
theorem lookup_none_of_all_miss (st : SymbolTable) (a : PyVal)
    (hs : st.scope < (st.symtabs.length : Int))
    (hall : ∀ fr ∈ st.symtabs, frameGet fr a = Option.none) :
    st.lookup a = Except.ok PyVal.none := by
  unfold SymbolTable.lookup
  split
  · rfl
  · rename_i hneg
    exact lookupAux_none st.symtabs a st.scope.toNat (by omega) hall

/-- Binding a name in a freshly opened innermost scope and then closing that
scope restores the exact original table. -/
theorem put_fresh_close (st : SymbolTable) (a v : PyVal)
    (hlen : st.scope + 1 = (st.symtabs.length : Int)) :
    ∃ st2, st.begin_scope.put a v = Except.ok st2
      ∧ st2.end_scope = Except.ok st := by
  refine ⟨⟨st.scope + 1, st.symtabs ++ [frameSet [] a v]⟩, ?_, ?_⟩
  · unfold SymbolTable.put SymbolTable.begin_scope pyIdx
    simp only []
    rw [if_pos (by omega), if_pos (by simp; omega)]
    simp only [Except.ok.injEq, SymbolTable.mk.injEq]
    refine ⟨trivial, ?_⟩
    have hidx : (st.scope + 1).toNat = st.symtabs.length := by omega
    rw [hidx, getD_concat_length, set_concat_length]
  · unfold SymbolTable.end_scope
    rw [if_neg (by simp)]
    simp only [Except.ok.injEq]
    rw [List.dropLast_concat]
    cases st
    simp

/-- C4 (counterexample): checking the bare prototype `int f();` completes
successfully, yet the visitor has called `begin_scope` twice (program +
FuncDecl) and `end_scope` only once — the claimed begin/end balance fails
because `visit_FuncDecl` opens a scope that only `visit_FuncDef` would
close. -/
theorem c4_counterexample :
    ∃ v t' s', visit 20 protoProg initialState = Except.ok (v, t', s')
      ∧ s'.begin_calls = 2 ∧ s'.end_calls = 1 :=
  ⟨_, _, _, rfl, rfl, rfl⟩

/-- C4 (amended): (1) for every well-formed tree the final begin/end
scope-call difference equals the syntactic balance `netScopes` of the tree
(so the counts are equal exactly when every FuncDecl sits under a FuncDef,
e.g. for `balProg`, and a bare prototype leaves one scope open); (2) closing
a freshly opened scope removes exactly the frame holding its bindings,
restoring the previous table; (3) a lookup for a name absent from every
remaining frame reports not-found (`None`). -/
theorem c4_amended :
    (∀ fuel t s v t' s', wf t = true →
        visit fuel t s = Except.ok (v, t', s') →
        ScopeDelta s' = ScopeDelta s + netScopes t)
    ∧ (∀ st : SymbolTable, ∀ a v : PyVal,
        st.scope + 1 = (st.symtabs.length : Int) →
        ∃ st2, st.begin_scope.put a v = Except.ok st2
          ∧ st2.end_scope = Except.ok st)
    ∧ (∀ st : SymbolTable, ∀ a : PyVal,
        st.scope < (st.symtabs.length : Int) →
        (∀ fr ∈ st.symtabs, frameGet fr a = Option.none) →
        st.lookup a = Except.ok PyVal.none) := by
  refine ⟨?_, ?_, ?_⟩
  · intro fuel t s v t' s' hw h
    exact ((netInvariant fuel).1 t s v t' s' hw h).1
  · intro st a v hlen
    exact put_fresh_close st a v hlen
  · intro st a hs hall
    exact lookup_none_of_all_miss st a hs hall

theorem c4_amended_witness :
    (∃ v t' s', visit 20 balProg initialState = Except.ok (v, t', s')
       ∧ ScopeDelta s' = ScopeDelta initialState + netScopes balProg)
    ∧ (∃ st2, (SymbolTable.begin_scope ⟨0, [[]]⟩).put (PyVal.str "y") (PyVal.str "int")
          = Except.ok st2 ∧ st2.end_scope = Except.ok ⟨0, [[]]⟩)
    ∧ SymbolTable.lookup ⟨0, [[]]⟩ (PyVal.str "y") = Except.ok PyVal.none := by
  refine ⟨⟨_, _, _, rfl, c4_amended.1 20 balProg initialState _ _ _ (by decide) rfl⟩, ?_, ?_⟩
  · exact c4_amended.2.1 ⟨0, [[]]⟩ (PyVal.str "y") (PyVal.str "int") (by decide)
  · refine c4_amended.2.2 ⟨0, [[]]⟩ (PyVal.str "y") (by decide) ?_
    intro fr hfr
    rw [List.mem_singleton] at hfr
    subst hfr
    rfl

theorem isVarDecl_kind (t : Node) : isVarDecl t = (kindOf t == 3) := by
  cases t <;> rfl

theorem isArrayDecl_kind (t : Node) : isArrayDecl t = (kindOf t == 4) := by
  cases t <;> rfl

theorem isFuncDecl_kind (t : Node) : isFuncDecl t = (kindOf t == 5) := by
  cases t <;> rfl

theorem isID_kind (t : Node) : isID t = (kindOf t == 9) := by
  cases t <;> rfl

theorem isConstant_kind (t : Node) : isConstant t = (kindOf t == 8) := by
  cases t <;> rfl

theorem isArrayRef_kind (t : Node) : isArrayRef t = (kindOf t == 16) := by
  cases t <;> rfl

theorem kind_isVarDecl {a b : Node} (h : kindOf a = kindOf b) :
    isVarDecl a = isVarDecl b := by rw [isVarDecl_kind, isVarDecl_kind, h]

theorem kind_isArrayDecl {a b : Node} (h : kindOf a = kindOf b) :
    isArrayDecl a = isArrayDecl b := by rw [isArrayDecl_kind, isArrayDecl_kind, h]

theorem kind_isFuncDecl {a b : Node} (h : kindOf a = kindOf b) :
    isFuncDecl a = isFuncDecl b := by rw [isFuncDecl_kind, isFuncDecl_kind, h]

theorem kind_isID {a b : Node} (h : kindOf a = kindOf b) :
    isID a = isID b := by rw [isID_kind, isID_kind, h]

theorem kind_isConstant {a b : Node} (h : kindOf a = kindOf b) :
    isConstant a = isConstant b := by rw [isConstant_kind, isConstant_kind, h]

theorem kind_isArrayRef {a b : Node} (h : kindOf a = kindOf b) :
    isArrayRef a = isArrayRef b := by rw [isArrayRef_kind, isArrayRef_kind, h]

/-- On every node that is neither an ID nor a Constant,
`type_from_id_or_const` is just a visit. -/
theorem tfioc_eq_visit (m : String) (fuel : Nat) (look : Node) (s : CheckerState)
    (h1 : isID look = false) (h2 : isConstant look = false) :
    typeFromIdOrConst m (fuel+1) look s = visit fuel look s := by
  cases look <;> first | rfl | simp [isID, isConstant] at h1 h2

/-- Re-checking an already-checked well-formed tree with a fresh state is the
identity: the rebuilt tree has the same node kind, is again well formed, and
visiting it from the same start state reproduces the same value, tree and
final state (idempotence of the checker including its Cast mutation). -/
theorem idemInvariant : ∀ fuel : Nat,
    (∀ t s v t' s', wf t = true → visit fuel t s = Except.ok (v, t', s') →
       kindOf t' = kindOf t ∧ wf t' = true ∧ visit fuel t' s = Except.ok (v, t', s'))
  ∧ (∀ ns s ns' s', wfList ns = true → visitEach fuel ns s = Except.ok (ns', s') →
       wfList ns' = true ∧ visitEach fuel ns' s = Except.ok (ns', s'))
  ∧ (∀ o s v o' s', wfOpt o = true → visitOpt fuel o s = Except.ok (v, o', s') →
       wfOpt o' = true ∧ visitOpt fuel o' s = Except.ok (v, o', s'))
  ∧ (∀ m look s v look' s', wf look = true →
       typeFromIdOrConst m fuel look s = Except.ok (v, look', s') →
       kindOf look' = kindOf look ∧ wf look' = true ∧
       typeFromIdOrConst m fuel look' s = Except.ok (v, look', s'))
  ∧ (∀ c es s es' s', (es.all fun e => isID e || isConstant e) = true →
       initLoop fuel c es s = Except.ok (es', s') → es' = es) := by
  intro fuel
  induction fuel with
  | zero =>
    refine ⟨?_, ?_, ?_, ?_, ?_⟩
    · intro t s v t' s' _ h; simp [visit] at h
    · intro ns s ns' s' _ h; simp [visitEach] at h
    · intro o s v o' s' _ h; simp [visitOpt] at h
    · intro m look s v look' s' _ h; simp [typeFromIdOrConst] at h
    · intro c es s es' s' _ h; simp [initLoop] at h
  | succ fuel ih =>
    obtain ⟨ihV, ihE, ihO, ihT, ihI⟩ := ih
    refine ⟨?_, ?_, ?_, ?_, ?_⟩
    · intro t s v t' s' hwf h
      cases t with
      | program gdecls =>
        simp only [visit] at h
        rw [bind_ok_iff] at h
        obtain ⟨⟨gs2, s2⟩, he, h⟩ := h
        try simp only [] at h
        rw [bind_ok_iff] at h
        obtain ⟨s3, hend, h⟩ := h
        try simp only [] at h
        simp only [Except.ok.injEq, Prod.mk.injEq] at h
        obtain ⟨rfl, rfl, rfl⟩ := h
        have dE := ihE _ _ _ _ (by simpa [wf] using hwf) he
        refine ⟨rfl, by simpa [wf] using dE.1, ?_⟩
        simp only [visit]
        rw [dE.2, except_bind_ok]
        try simp only []
        rw [hend, except_bind_ok]
      | globalDecl decls =>
        simp only [visit] at h
        rw [bind_ok_iff] at h
        obtain ⟨⟨ds2, s1⟩, he, h⟩ := h
        try simp only [] at h
        simp only [Except.ok.injEq, Prod.mk.injEq] at h
        obtain ⟨rfl, rfl, rfl⟩ := h
        have dE := ihE _ _ _ _ (by simpa [wf] using hwf) he
        refine ⟨rfl, by simpa [wf] using dE.1, ?_⟩
        simp only [visit]
        rw [dE.2, except_bind_ok]
      | decl nm ty ini =>
        have h0 := h
        simp only [visit] at h
        cases ty with
        | none =>
          simp only [Except.ok.injEq, Prod.mk.injEq] at h
          obtain ⟨rfl, rfl, rfl⟩ := h
          exact ⟨rfl, hwf, h0⟩
        | some tyN =>
          try simp only [] at h
          have hwf2 : wf tyN = true ∧ wfOpt ini = true := by
            simpa [wf, wfOpt, Bool.and_eq_true] using hwf
          cases hA : isArrayDecl tyN with
          | true =>
            rw [if_pos hA] at h
            rw [bind_ok_iff] at h
            obtain ⟨⟨v1, tyN3, s2⟩, hv, h⟩ := h
            try simp only [] at h
            rw [bind_ok_iff] at h
            obtain ⟨entry, hentry, h⟩ := h
            try simp only [] at h
            rw [except_bind_ok] at h
            try simp only [] at h
            have d := ihV _ _ _ _ _ hwf2.1 hv
            have hA3 : isArrayDecl tyN3 = true := (kind_isArrayDecl d.1).trans hA
            cases ini with
            | none =>
              try simp only [] at h
              simp only [Except.ok.injEq, Prod.mk.injEq] at h
              obtain ⟨rfl, rfl, rfl⟩ := h
              refine ⟨rfl, by simp [wf, wfOpt, d.2.1], ?_⟩
              simp only [visit]
              rw [if_pos hA3, d.2.2, except_bind_ok]
              try simp only []
              rw [hentry, except_bind_ok]
              try simp only []
              rfl
            | some i =>
              try simp only [] at h
              rw [bind_ok_iff] at h
              obtain ⟨⟨iv, i2, s3⟩, hvi, h⟩ := h
              try simp only [] at h
              have dI := ihV _ _ _ _ _ (by simpa [wfOpt] using hwf2.2) hvi
              split at h
              · rename_i hceq
                simp only [Except.ok.injEq, Prod.mk.injEq] at h
                obtain ⟨rfl, rfl, rfl⟩ := h
                refine ⟨rfl, by simp [wf, wfOpt, d.2.1, dI.2.1], ?_⟩
                simp only [visit]
                rw [if_pos hA3, d.2.2, except_bind_ok]
                try simp only []
                rw [hentry, except_bind_ok]
                try simp only []
                rw [except_bind_ok]
                try simp only []
                rw [dI.2.2, except_bind_ok]
                try simp only []
                rw [if_pos hceq]
              · simp at h
          | false =>
            rw [if_neg (by simp [hA])] at h
            cases hF : isFuncDecl tyN with
            | true =>
              rw [if_pos hF] at h
              rw [bind_ok_iff] at h
              obtain ⟨⟨v1, tyN3, s2⟩, hv, h⟩ := h
              try simp only [] at h
              rw [except_bind_ok] at h
              try simp only [] at h
              have d := ihV _ _ _ _ _ hwf2.1 hv
              have hA3 : isArrayDecl tyN3 = false := (kind_isArrayDecl d.1).trans hA
              have hF3 : isFuncDecl tyN3 = true := (kind_isFuncDecl d.1).trans hF
              cases ini with
              | none =>
                try simp only [] at h
                simp only [Except.ok.injEq, Prod.mk.injEq] at h
                obtain ⟨rfl, rfl, rfl⟩ := h
                refine ⟨rfl, by simp [wf, wfOpt, d.2.1], ?_⟩
                simp only [visit]
                rw [if_neg (by simp [hA3]), if_pos hF3, d.2.2, except_bind_ok]
                try simp only []
                rfl
              | some i =>
                try simp only [] at h
                rw [bind_ok_iff] at h
                obtain ⟨⟨iv, i2, s3⟩, hvi, h⟩ := h
                try simp only [] at h
                have dI := ihV _ _ _ _ _ (by simpa [wfOpt] using hwf2.2) hvi
                split at h
                · rename_i hceq
                  simp only [Except.ok.injEq, Prod.mk.injEq] at h
                  obtain ⟨rfl, rfl, rfl⟩ := h
                  refine ⟨rfl, by simp [wf, wfOpt, d.2.1, dI.2.1], ?_⟩
                  simp only [visit]
                  rw [if_neg (by simp [hA3]), if_pos hF3, d.2.2, except_bind_ok]
                  try simp only []
                  rw [except_bind_ok]
                  try simp only []
                  rw [dI.2.2, except_bind_ok]
                  try simp only []
                  rw [if_pos hceq]
                · simp at h
            | false =>
              rw [if_neg (by simp [hF])] at h
              cases hV : isVarDecl tyN with
              | true =>
                rw [if_pos hV] at h
                rw [bind_ok_iff] at h
                obtain ⟨⟨v1, tyN3, s2⟩, hv, h⟩ := h
                try simp only [] at h
                rw [except_bind_ok] at h
                try simp only [] at h
                have d := ihV _ _ _ _ _ hwf2.1 hv
                have hA3 : isArrayDecl tyN3 = false := (kind_isArrayDecl d.1).trans hA
                have hF3 : isFuncDecl tyN3 = false := (kind_isFuncDecl d.1).trans hF
                have hV3 : isVarDecl tyN3 = true := (kind_isVarDecl d.1).trans hV
                cases ini with
                | none =>
                  try simp only [] at h
                  simp only [Except.ok.injEq, Prod.mk.injEq] at h
                  obtain ⟨rfl, rfl, rfl⟩ := h
                  refine ⟨rfl, by simp [wf, wfOpt, d.2.1], ?_⟩
                  simp only [visit]
                  rw [if_neg (by simp [hA3]), if_neg (by simp [hF3]), if_pos hV3,
                    d.2.2, except_bind_ok]
                  try simp only []
                  rfl
                | some i =>
                  try simp only [] at h
                  rw [bind_ok_iff] at h
                  obtain ⟨⟨iv, i2, s3⟩, hvi, h⟩ := h
                  try simp only [] at h
                  have dI := ihV _ _ _ _ _ (by simpa [wfOpt] using hwf2.2) hvi
                  split at h
                  · rename_i hceq
                    simp only [Except.ok.injEq, Prod.mk.injEq] at h
                    obtain ⟨rfl, rfl, rfl⟩ := h
                    refine ⟨rfl, by simp [wf, wfOpt, d.2.1, dI.2.1], ?_⟩
                    simp only [visit]
                    rw [if_neg (by simp [hA3]), if_neg (by simp [hF3]), if_pos hV3,
                      d.2.2, except_bind_ok]
                    try simp only []
                    rw [except_bind_ok]
                    try simp only []
                    rw [dI.2.2, except_bind_ok]
                    try simp only []
                    rw [if_pos hceq]
                  · simp at h
              | false =>
                rw [if_neg (by simp [hV])] at h
                rw [except_bind_ok] at h
                try simp only [] at h
                cases ini with
                | none =>
                  try simp only [] at h
                  simp only [Except.ok.injEq, Prod.mk.injEq] at h
                  obtain ⟨rfl, rfl, rfl⟩ := h
                  exact ⟨rfl, hwf, h0⟩
                | some i =>
                  try simp only [] at h
                  rw [bind_ok_iff] at h
                  obtain ⟨⟨iv, i2, s3⟩, hvi, h⟩ := h
                  try simp only [] at h
                  simp at h
      | varDecl nmF tyF =>
        have hw := hwf
        simp only [wf, Bool.and_eq_true] at hw
        obtain ⟨x, rfl⟩ : ∃ x, nmF = Option.some (Node.id x) := by
          have h1 := hw.1
          cases nmF with
          | none => simp at h1
          | some n => cases n <;> simp at h1 <;> exact ⟨_, rfl⟩
        simp only [visit] at h
        rw [bind_ok_iff] at h
        obtain ⟨⟨nv, nmF2, s1⟩, hv1, h⟩ := h
        try simp only [] at h
        have e1 := visitOpt_some_id_ok hv1
        simp only [Prod.mk.injEq] at e1
        obtain ⟨rfl, rfl, rfl⟩ := e1
        rw [bind_ok_iff] at h
        obtain ⟨⟨tv, tyF2, s2⟩, hv2, h⟩ := h
        try simp only [] at h
        rw [bind_ok_iff] at h
        obtain ⟨s3, hput, h⟩ := h
        try simp only [] at h
        simp only [Except.ok.injEq, Prod.mk.injEq] at h
        obtain ⟨rfl, rfl, rfl⟩ := h
        have dO := ihO _ _ _ _ _ hw.2 hv2
        refine ⟨rfl, by simp [wf, dO.1], ?_⟩
        simp only [visit]
        rw [hv1, except_bind_ok]
        try simp only []
        rw [dO.2, except_bind_ok]
        try simp only []
        rw [hput, except_bind_ok]
      | arrayDecl tyO dim =>
        have h0 := h
        simp only [visit] at h
        cases tyO with
        | none =>
          simp only [Except.ok.injEq, Prod.mk.injEq] at h
          obtain ⟨rfl, rfl, rfl⟩ := h
          exact ⟨rfl, hwf, h0⟩
        | some tyN =>
          try simp only [] at h
          have hwft : wf tyN = true := by simpa [wf, wfOpt] using hwf
          cases hV : isVarDecl tyN with
          | true =>
            rw [if_pos hV] at h
            rw [bind_ok_iff] at h
            obtain ⟨⟨av, tyN2, s1⟩, hv, h⟩ := h
            try simp only [] at h
            rw [bind_ok_iff] at h
            obtain ⟨⟨k1, o1, s2⟩, hk1, h⟩ := h
            try simp only [] at h
            rw [bind_ok_iff] at h
            obtain ⟨s3, hput, h⟩ := h
            try simp only [] at h
            rw [bind_ok_iff] at h
            obtain ⟨⟨k2, o2, s4⟩, hk2, h⟩ := h
            try simp only [] at h
            simp only [Except.ok.injEq, Prod.mk.injEq] at h
            obtain ⟨rfl, rfl, rfl⟩ := h
            have d := ihV _ _ _ _ _ hwft hv
            have hV2 : isVarDecl tyN2 = true := (kind_isVarDecl d.1).trans hV
            refine ⟨rfl, by simp [wf, wfOpt, d.2.1], ?_⟩
            simp only [visit]
            rw [if_pos hV2, d.2.2, except_bind_ok]
            try simp only []
            rw [hk1, except_bind_ok]
            try simp only []
            rw [hput, except_bind_ok]
            try simp only []
            rw [hk2, except_bind_ok]
          | false =>
            rw [if_neg (by simp [hV])] at h
            cases hA2 : isArrayDecl tyN with
            | true =>
              rw [if_pos hA2] at h
              rw [bind_ok_iff] at h
              obtain ⟨⟨nv, tyN2, s1⟩, hv, h⟩ := h
              try simp only [] at h
              rw [bind_ok_iff] at h
              obtain ⟨⟨k1, s2⟩, hk1, h⟩ := h
              try simp only [] at h
              rw [bind_ok_iff] at h
              obtain ⟨entry, hget, h⟩ := h
              try simp only [] at h
              have d := ihV _ _ _ _ _ hwft hv
              have hV2 : isVarDecl tyN2 = false := (kind_isVarDecl d.1).trans hV
              have hA22 : isArrayDecl tyN2 = true := (kind_isArrayDecl d.1).trans hA2
              split at h
              · rename_i hstr
                rw [bind_ok_iff] at h
                obtain ⟨⟨k2, s2b⟩, hk2, h⟩ := h
                try simp only [] at h
                rw [bind_ok_iff] at h
                obtain ⟨s3, hput, h⟩ := h
                try simp only [] at h
                rw [bind_ok_iff] at h
                obtain ⟨⟨k3, s4⟩, hk3, h⟩ := h
                try simp only [] at h
                rw [bind_ok_iff] at h
                obtain ⟨entry2, hget2, h⟩ := h
                try simp only [] at h
                simp only [Except.ok.injEq, Prod.mk.injEq] at h
                obtain ⟨rfl, rfl, rfl⟩ := h
                refine ⟨rfl, by simp [wf, wfOpt, d.2.1], ?_⟩
                simp only [visit]
                rw [if_neg (by simp [hV2]), if_pos hA22, d.2.2, except_bind_ok]
                try simp only []
                rw [hk1, except_bind_ok]
                try simp only []
                rw [hget, except_bind_ok]
                try simp only []
                rw [if_pos hstr]
                rw [hk2, except_bind_ok]
                try simp only []
                rw [hput, except_bind_ok]
                try simp only []
                rw [hk3, except_bind_ok]
                try simp only []
                rw [hget2, except_bind_ok]
              · rename_i hstr
                rw [except_bind_ok] at h
                try simp only [] at h
                rw [bind_ok_iff] at h
                obtain ⟨⟨k3, s4⟩, hk3, h⟩ := h
                try simp only [] at h
                rw [bind_ok_iff] at h
                obtain ⟨entry2, hget2, h⟩ := h
                try simp only [] at h
                simp only [Except.ok.injEq, Prod.mk.injEq] at h
                obtain ⟨rfl, rfl, rfl⟩ := h
                refine ⟨rfl, by simp [wf, wfOpt, d.2.1], ?_⟩
                simp only [visit]
                rw [if_neg (by simp [hV2]), if_pos hA22, d.2.2, except_bind_ok]
                try simp only []
                rw [hk1, except_bind_ok]
                try simp only []
                rw [hget, except_bind_ok]
                try simp only []
                rw [if_neg hstr]
                rw [except_bind_ok]
                try simp only []
                rw [hk3, except_bind_ok]
                try simp only []
                rw [hget2, except_bind_ok]
            | false =>
              rw [if_neg (by simp [hA2])] at h
              simp only [Except.ok.injEq, Prod.mk.injEq] at h
              obtain ⟨rfl, rfl, rfl⟩ := h
              exact ⟨rfl, hwf, h0⟩
      | funcDecl args tyO =>
        simp only [visit] at h
        cases tyO with
        | none => simp at h
        | some tyN =>
          try simp only [] at h
          cases hV : isVarDecl tyN with
          | false =>
            rw [if_neg (by simp [hV])] at h
            simp at h
          | true =>
            rw [if_pos hV] at h
            rw [bind_ok_iff] at h
            obtain ⟨⟨node_type, tyN2, s1⟩, hv, h⟩ := h
            try simp only [] at h
            cases args with
            | some a0 => simp at h
            | none =>
              try simp only [] at h
              simp only [Except.ok.injEq, Prod.mk.injEq] at h
              obtain ⟨rfl, rfl, rfl⟩ := h
              have d := ihV _ _ _ _ _ (by simpa [wf, wfOpt] using hwf) hv
              have hV2 : isVarDecl tyN2 = true := (kind_isVarDecl d.1).trans hV
              refine ⟨rfl, by simp [wf, wfOpt, d.2.1], ?_⟩
              simp only [visit]
              rw [if_pos hV2, d.2.2, except_bind_ok]
              try simp only []
              try rfl
      | funcDef dcl ps body =>
        have hwf3 : wfOpt dcl = true ∧ wfList ps = true ∧ wf body = true := by
          simpa [wf, Bool.and_eq_true, and_assoc] using hwf
        simp only [visit] at h
        cases dcl with
        | some dd =>
          try simp only [] at h
          rw [bind_ok_iff] at h
          obtain ⟨⟨vd, d2, s1b⟩, hvd, h⟩ := h
          try simp only [] at h
          rw [except_bind_ok] at h
          try simp only [] at h
          rw [bind_ok_iff] at h
          obtain ⟨⟨ps2, s2⟩, hps, h⟩ := h
          try simp only [] at h
          rw [bind_ok_iff] at h
          obtain ⟨⟨vb, body2, s3⟩, hb, h⟩ := h
          try simp only [] at h
          rw [bind_ok_iff] at h
          obtain ⟨s4, hend, h⟩ := h
          try simp only [] at h
          simp only [Except.ok.injEq, Prod.mk.injEq] at h
          obtain ⟨rfl, rfl, rfl⟩ := h
          have dD := ihV _ _ _ _ _ (by simpa [wfOpt] using hwf3.1) hvd
          have dE := ihE _ _ _ _ hwf3.2.1 hps
          have dB := ihV _ _ _ _ _ hwf3.2.2 hb
          refine ⟨rfl, by simp [wf, wfOpt, dD.2.1, dE.1, dB.2.1], ?_⟩
          simp only [visit]
          try simp only []
          rw [dD.2.2, except_bind_ok]
          try simp only []
          rw [except_bind_ok]
          try simp only []
          rw [dE.2, except_bind_ok]
          try simp only []
          rw [dB.2.2, except_bind_ok]
          try simp only []
          rw [hend, except_bind_ok]
        | none =>
          try simp only [] at h
          rw [except_bind_ok] at h
          try simp only [] at h
          rw [bind_ok_iff] at h
          obtain ⟨⟨ps2, s2⟩, hps, h⟩ := h
          try simp only [] at h
          rw [bind_ok_iff] at h
          obtain ⟨⟨vb, body2, s3⟩, hb, h⟩ := h
          try simp only [] at h
          rw [bind_ok_iff] at h
          obtain ⟨s4, hend, h⟩ := h
          try simp only [] at h
          simp only [Except.ok.injEq, Prod.mk.injEq] at h
          obtain ⟨rfl, rfl, rfl⟩ := h
          have dE := ihE _ _ _ _ hwf3.2.1 hps
          have dB := ihV _ _ _ _ _ hwf3.2.2 hb
          refine ⟨rfl, by simp [wf, wfOpt, dE.1, dB.2.1], ?_⟩
          simp only [visit]
          try simp only []
          rw [except_bind_ok]
          try simp only []
          rw [dE.2, except_bind_ok]
          try simp only []
          rw [dB.2.2, except_bind_ok]
          try simp only []
          rw [hend, except_bind_ok]
      | typeNode tys =>
        have h0 := h
        simp only [visit] at h
        cases tys with
        | none =>
          simp only [Except.ok.injEq, Prod.mk.injEq] at h
          obtain ⟨rfl, rfl, rfl⟩ := h
          exact ⟨rfl, hwf, h0⟩
        | some l =>
          cases l with
          | nil => simp at h
          | cons t0 rest =>
            simp only [Except.ok.injEq, Prod.mk.injEq] at h
            obtain ⟨rfl, rfl, rfl⟩ := h
            exact ⟨rfl, hwf, h0⟩
      | constant ty cv =>
        have h0 := h
        simp only [visit] at h
        simp only [Except.ok.injEq, Prod.mk.injEq] at h
        obtain ⟨rfl, rfl, rfl⟩ := h
        exact ⟨rfl, hwf, h0⟩
      | id nm =>
        have h0 := h
        simp only [visit] at h
        simp only [Except.ok.injEq, Prod.mk.injEq] at h
        obtain ⟨rfl, rfl, rfl⟩ := h
        exact ⟨rfl, hwf, h0⟩
      | binaryOp op l r =>
        have hwf2 : wf l = true ∧ wf r = true := by
          simpa [wf, Bool.and_eq_true] using hwf
        simp only [visit] at h
        rw [bind_ok_iff] at h
        obtain ⟨⟨left, l2, s1⟩, hl, h⟩ := h
        try simp only [] at h
        rw [bind_ok_iff] at h
        obtain ⟨⟨right, r2, s2⟩, hr, h⟩ := h
        try simp only [] at h
        have dL := ihT _ _ _ _ _ _ hwf2.1 hl
        have dR := ihT _ _ _ _ _ _ hwf2.2 hr
        split at h
        · rename_i heq
          rw [bind_ok_iff] at h
          obtain ⟨tt, htt, h⟩ := h
          try simp only [] at h
          split at h
          · rename_i hop
            simp only [Except.ok.injEq, Prod.mk.injEq] at h
            obtain ⟨rfl, rfl, rfl⟩ := h
            refine ⟨rfl, by simp [wf, dL.2.1, dR.2.1], ?_⟩
            simp only [visit]
            rw [dL.2.2, except_bind_ok]
            try simp only []
            rw [dR.2.2, except_bind_ok]
            try simp only []
            rw [if_pos heq, htt, except_bind_ok]
            try simp only []
            rw [if_pos hop]
          · simp at h
        · simp at h
      | unaryOp op e =>
        simp only [visit] at h
        rw [bind_ok_iff] at h
        obtain ⟨⟨nv, e2, s1⟩, hv, h⟩ := h
        try simp only [] at h
        rw [bind_ok_iff] at h
        obtain ⟨vt, hlk, h⟩ := h
        try simp only [] at h
        rw [bind_ok_iff] at h
        obtain ⟨tt, htt, h⟩ := h
        try simp only [] at h
        split at h
        · rename_i hop
          simp only [Except.ok.injEq, Prod.mk.injEq] at h
          obtain ⟨rfl, rfl, rfl⟩ := h
          have d := ihV _ _ _ _ _ (by simpa [wf] using hwf) hv
          refine ⟨rfl, by simp [wf, d.2.1], ?_⟩
          simp only [visit]
          rw [d.2.2, except_bind_ok]
          try simp only []
          rw [hlk, except_bind_ok]
          try simp only []
          rw [htt, except_bind_ok]
          try simp only []
          rw [if_pos hop]
        · simp at h
      | assignment op l r =>
        have hwf2 : wf l = true ∧ wf r = true := by
          simpa [wf, Bool.and_eq_true] using hwf
        simp only [visit] at h
        rw [bind_ok_iff] at h
        obtain ⟨⟨lv, l2, s1⟩, hvl, h⟩ := h
        try simp only [] at h
        rw [bind_ok_iff] at h
        obtain ⟨left, hlk, h⟩ := h
        try simp only [] at h
        have dL := ihV _ _ _ _ _ hwf2.1 hvl
        split at h
        · rename_i htru
          split at h
          · rename_i hdis
            rw [bind_ok_iff] at h
            obtain ⟨⟨rv, r3, s2b⟩, hv2, h⟩ := h
            try simp only [] at h
            rw [bind_ok_iff] at h
            obtain ⟨rt, hlk2, h⟩ := h
            try simp only [] at h
            rw [except_bind_ok] at h
            try simp only [] at h
            have dR := ihV _ _ _ _ _ hwf2.2 hv2
            have hdis3 : (isID r3 || isArrayRef r3) = true := by
              rw [kind_isID dR.1, kind_isArrayRef dR.1]
              exact hdis
            split at h
            · rename_i heq
              rw [bind_ok_iff] at h
              obtain ⟨tt, htt, h⟩ := h
              try simp only [] at h
              split at h
              · rename_i hop
                simp only [Except.ok.injEq, Prod.mk.injEq] at h
                obtain ⟨rfl, rfl, rfl⟩ := h
                refine ⟨rfl, by simp [wf, dL.2.1, dR.2.1], ?_⟩
                simp only [visit]
                rw [dL.2.2, except_bind_ok]
                try simp only []
                rw [hlk, except_bind_ok]
                try simp only []
                rw [if_pos htru, if_pos hdis3, dR.2.2, except_bind_ok]
                try simp only []
                rw [hlk2, except_bind_ok]
                try simp only []
                rw [except_bind_ok]
                try simp only []
                rw [if_pos heq, htt, except_bind_ok]
                try simp only []
                rw [if_pos hop]
              · simp at h
            · simp at h
          · rename_i hdis
            rw [bind_ok_iff] at h
            obtain ⟨⟨right, r2, s2⟩, hrr, h⟩ := h
            try simp only [] at h
            have dR := ihV _ _ _ _ _ hwf2.2 hrr
            have hdis3 : ¬((isID r2 || isArrayRef r2) = true) := by
              rw [kind_isID dR.1, kind_isArrayRef dR.1]
              exact hdis
            split at h
            · rename_i heq
              rw [bind_ok_iff] at h
              obtain ⟨tt, htt, h⟩ := h
              try simp only [] at h
              split at h
              · rename_i hop
                simp only [Except.ok.injEq, Prod.mk.injEq] at h
                obtain ⟨rfl, rfl, rfl⟩ := h
                refine ⟨rfl, by simp [wf, dL.2.1, dR.2.1], ?_⟩
                simp only [visit]
                rw [dL.2.2, except_bind_ok]
                try simp only []
                rw [hlk, except_bind_ok]
                try simp only []
                rw [if_pos htru, if_neg hdis3, dR.2.2, except_bind_ok]
                try simp only []
                rw [if_pos heq, htt, except_bind_ok]
                try simp only []
                rw [if_pos hop]
              · simp at h
            · simp at h
        · simp at h
      | cast tyNc tySc e =>
        simp only [visit] at h
        rw [bind_ok_iff] at h
        obtain ⟨⟨ev, e2, s1⟩, hv, h⟩ := h
        try simp only [] at h
        rw [bind_ok_iff] at h
        obtain ⟨ta, hta, h⟩ := h
        try simp only [] at h
        simp only [Except.ok.injEq, Prod.mk.injEq] at h
        obtain ⟨rfl, rfl, rfl⟩ := h
        have d := ihV _ _ _ _ _ (by simpa [wf] using hwf) hv
        refine ⟨rfl, by simp [wf, d.2.1], ?_⟩
        simp only [visit]
        rw [d.2.2, except_bind_ok]
        try simp only []
        rw [hta, except_bind_ok]
      | exprList es =>
        simp only [visit] at h
        rw [bind_ok_iff] at h
        obtain ⟨⟨es2, s1⟩, he, h⟩ := h
        try simp only [] at h
        simp only [Except.ok.injEq, Prod.mk.injEq] at h
        obtain ⟨rfl, rfl, rfl⟩ := h
        have dE := ihE _ _ _ _ (by simpa [wf] using hwf) he
        refine ⟨rfl, by simpa [wf] using dE.1, ?_⟩
        simp only [visit]
        rw [dE.2, except_bind_ok]
      | funcCall nmF args =>
        have h0 := h
        cases nmF <;> simp [wf, isID] at hwf
        rename_i a
        simp only [visit] at h
        rw [bind_ok_iff] at h
        obtain ⟨⟨nv, nm2, s1⟩, hv1, h⟩ := h
        try simp only [] at h
        have e1 := visit_id_ok hv1
        simp only [Prod.mk.injEq] at e1
        obtain ⟨rfl, rfl, rfl⟩ := e1
        split at h
        · rename_i hf
          cases args with
          | some a0 =>
            try simp only [] at h
            split at h
            · rename_i hida
              cases a0 <;> simp [isID] at hida
              rename_i b
              rw [bind_ok_iff] at h
              obtain ⟨⟨va, a2, s2b⟩, hva, h⟩ := h
              try simp only [] at h
              have e2 := visit_id_ok hva
              simp only [Prod.mk.injEq] at e2
              obtain ⟨rfl, rfl, rfl⟩ := e2
              rw [except_bind_ok] at h
              try simp only [] at h
              rw [bind_ok_iff] at h
              obtain ⟨⟨nv2, nm3, s3⟩, hv2, h⟩ := h
              try simp only [] at h
              have e3 := visit_id_ok hv2
              simp only [Prod.mk.injEq] at e3
              obtain ⟨rfl, rfl, rfl⟩ := e3
              rw [bind_ok_iff] at h
              obtain ⟨rt, hlk, h⟩ := h
              try simp only [] at h
              simp only [Except.ok.injEq, Prod.mk.injEq] at h
              obtain ⟨rfl, rfl, rfl⟩ := h
              exact ⟨rfl, by simp [wf, isID], h0⟩
            · rename_i hida
              rw [except_bind_ok] at h
              try simp only [] at h
              rw [bind_ok_iff] at h
              obtain ⟨⟨nv2, nm3, s3⟩, hv2, h⟩ := h
              try simp only [] at h
              have e3 := visit_id_ok hv2
              simp only [Prod.mk.injEq] at e3
              obtain ⟨rfl, rfl, rfl⟩ := e3
              rw [bind_ok_iff] at h
              obtain ⟨rt, hlk, h⟩ := h
              try simp only [] at h
              simp only [Except.ok.injEq, Prod.mk.injEq] at h
              obtain ⟨rfl, rfl, rfl⟩ := h
              exact ⟨rfl, by simp [wf, isID], h0⟩
          | none =>
            try simp only [] at h
            rw [except_bind_ok] at h
            try simp only [] at h
            rw [bind_ok_iff] at h
            obtain ⟨⟨nv2, nm3, s3⟩, hv2, h⟩ := h
            try simp only [] at h
            have e3 := visit_id_ok hv2
            simp only [Prod.mk.injEq] at e3
            obtain ⟨rfl, rfl, rfl⟩ := e3
            rw [bind_ok_iff] at h
            obtain ⟨rt, hlk, h⟩ := h
            try simp only [] at h
            simp only [Except.ok.injEq, Prod.mk.injEq] at h
            obtain ⟨rfl, rfl, rfl⟩ := h
            exact ⟨rfl, by simp [wf, isID], h0⟩
        · simp at h
      | arrayRef nmF sub =>
        have h0 := h
        have hwfc : isID nmF = true ∧ (if isArrayRef sub then wf sub else true) = true := by
          simpa [wf, Bool.and_eq_true] using hwf
        have hnm := hwfc.1
        have hsub := hwfc.2
        cases nmF <;> simp [isID] at hnm
        rename_i a
        simp only [visit] at h
        rw [bind_ok_iff] at h
        obtain ⟨⟨nv, nm2, s1⟩, hv1, h⟩ := h
        try simp only [] at h
        have e1 := visit_id_ok hv1
        simp only [Prod.mk.injEq] at e1
        obtain ⟨rfl, rfl, rfl⟩ := e1
        rw [bind_ok_iff] at h
        obtain ⟨array, hlk, h⟩ := h
        try simp only [] at h
        split at h
        · rename_i htru
          split at h
          · rename_i hstr
            simp only [Except.ok.injEq, Prod.mk.injEq] at h
            obtain ⟨rfl, rfl, rfl⟩ := h
            exact ⟨rfl, hwf, h0⟩
          · rename_i hstr
            split at h
            · rename_i hcA
              rw [bind_ok_iff] at h
              obtain ⟨⟨cv, sub3, s2b⟩, hv2, h⟩ := h
              try simp only [] at h
              rw [if_pos hcA] at hsub
              have dS := ihV _ _ _ _ _ hsub hv2
              have hcA3 : isArrayRef sub3 = true := (kind_isArrayRef dS.1).trans hcA
              split at h
              · rename_i hint
                rw [except_bind_ok] at h
                try simp only [] at h
                rw [bind_ok_iff] at h
                obtain ⟨⟨nv2, nm3, s4⟩, hv3, h⟩ := h
                try simp only [] at h
                have e3 := visit_id_ok hv3
                simp only [Prod.mk.injEq] at e3
                obtain ⟨rfl, rfl, rfl⟩ := e3
                simp only [Except.ok.injEq, Prod.mk.injEq] at h
                obtain ⟨rfl, rfl, rfl⟩ := h
                refine ⟨rfl, by simp [wf, isID, hcA3, dS.2.1], ?_⟩
                simp only [visit]
                rw [hv1, except_bind_ok]
                try simp only []
                rw [hlk, except_bind_ok]
                try simp only []
                rw [if_pos htru, if_neg hstr, if_pos hcA3, dS.2.2, except_bind_ok]
                try simp only []
                rw [if_pos hint]
                rw [except_bind_ok]
                try simp only []
                rw [hv3, except_bind_ok]
              · simp [except_bind_error] at h
            · rename_i hcA
              split at h
              · rename_i hcI
                cases sub <;> simp [isID] at hcI
                rename_i b
                rw [bind_ok_iff] at h
                obtain ⟨⟨sv, sub3, s2b⟩, hv2, h⟩ := h
                try simp only [] at h
                have e2 := visit_id_ok hv2
                simp only [Prod.mk.injEq] at e2
                obtain ⟨rfl, rfl, rfl⟩ := e2
                rw [bind_ok_iff] at h
                obtain ⟨cv2, hlk2, h⟩ := h
                try simp only [] at h
                split at h
                · rename_i hint
                  rw [except_bind_ok] at h
                  try simp only [] at h
                  rw [bind_ok_iff] at h
                  obtain ⟨⟨nv2, nm3, s4⟩, hv3, h⟩ := h
                  try simp only [] at h
                  have e3 := visit_id_ok hv3
                  simp only [Prod.mk.injEq] at e3
                  obtain ⟨rfl, rfl, rfl⟩ := e3
                  simp only [Except.ok.injEq, Prod.mk.injEq] at h
                  obtain ⟨rfl, rfl, rfl⟩ := h
                  exact ⟨rfl, hwf, h0⟩
                · simp [except_bind_error] at h
              · rename_i hcI
                split at h
                · rename_i hcC
                  cases sub <;> simp [isConstant] at hcC
                  rename_i cty cval
                  rw [bind_ok_iff] at h
                  obtain ⟨⟨cv, sub3, s2b⟩, hv2, h⟩ := h
                  try simp only [] at h
                  have e2 := visit_const_ok hv2
                  simp only [Prod.mk.injEq] at e2
                  obtain ⟨rfl, rfl, rfl⟩ := e2
                  split at h
                  · rename_i hint
                    rw [except_bind_ok] at h
                    try simp only [] at h
                    rw [bind_ok_iff] at h
                    obtain ⟨⟨nv2, nm3, s4⟩, hv3, h⟩ := h
                    try simp only [] at h
                    have e3 := visit_id_ok hv3
                    simp only [Prod.mk.injEq] at e3
                    obtain ⟨rfl, rfl, rfl⟩ := e3
                    simp only [Except.ok.injEq, Prod.mk.injEq] at h
                    obtain ⟨rfl, rfl, rfl⟩ := h
                    exact ⟨rfl, hwf, h0⟩
                  · simp [except_bind_error] at h
                · rename_i hcC
                  rw [except_bind_ok] at h
                  try simp only [] at h
                  rw [bind_ok_iff] at h
                  obtain ⟨⟨nv2, nm3, s4⟩, hv3, h⟩ := h
                  try simp only [] at h
                  have e3 := visit_id_ok hv3
                  simp only [Prod.mk.injEq] at e3
                  obtain ⟨rfl, rfl, rfl⟩ := e3
                  simp only [Except.ok.injEq, Prod.mk.injEq] at h
                  obtain ⟨rfl, rfl, rfl⟩ := h
                  exact ⟨rfl, hwf, h0⟩
        · simp at h
      | compound items =>
        simp only [visit] at h
        rw [bind_ok_iff] at h
        obtain ⟨⟨items2, s1⟩, he, h⟩ := h
        try simp only [] at h
        simp only [Except.ok.injEq, Prod.mk.injEq] at h
        obtain ⟨rfl, rfl, rfl⟩ := h
        have dE := ihE _ _ _ _ (by simpa [wf] using hwf) he
        refine ⟨rfl, by simpa [wf] using dE.1, ?_⟩
        simp only [visit]
        rw [dE.2, except_bind_ok]
      | ifStmt c tb e =>
        have hwf3 : wf c = true ∧ wf tb = true ∧ wfOpt e = true := by
          simpa [wf, Bool.and_eq_true, and_assoc] using hwf
        simp only [visit] at h
        rw [bind_ok_iff] at h
        obtain ⟨⟨vc, c2, s1⟩, hc, h⟩ := h
        try simp only [] at h
        rw [bind_ok_iff] at h
        obtain ⟨⟨vt, t2, s2⟩, ht, h⟩ := h
        try simp only [] at h
        have dC := ihV _ _ _ _ _ hwf3.1 hc
        have dT := ihV _ _ _ _ _ hwf3.2.1 ht
        cases e with
        | some eb =>
          try simp only [] at h
          rw [bind_ok_iff] at h
          obtain ⟨⟨ve, e2, s3⟩, heb, h⟩ := h
          try simp only [] at h
          simp only [Except.ok.injEq, Prod.mk.injEq] at h
          obtain ⟨rfl, rfl, rfl⟩ := h
          have dEb := ihV _ _ _ _ _ (by simpa [wfOpt] using hwf3.2.2) heb
          refine ⟨rfl, by simp [wf, wfOpt, dC.2.1, dT.2.1, dEb.2.1], ?_⟩
          simp only [visit]
          rw [dC.2.2, except_bind_ok]
          try simp only []
          rw [dT.2.2, except_bind_ok]
          try simp only []
          rw [dEb.2.2, except_bind_ok]
        | none =>
          try simp only [] at h
          simp only [Except.ok.injEq, Prod.mk.injEq] at h
          obtain ⟨rfl, rfl, rfl⟩ := h
          refine ⟨rfl, by simp [wf, wfOpt, dC.2.1, dT.2.1], ?_⟩
          simp only [visit]
          rw [dC.2.2, except_bind_ok]
          try simp only []
          rw [dT.2.2, except_bind_ok]
      | whileStmt c b =>
        have hwf2 : wf c = true ∧ wf b = true := by
          simpa [wf, Bool.and_eq_true] using hwf
        simp only [visit] at h
        rw [bind_ok_iff] at h
        obtain ⟨⟨vc, c2, s1⟩, hc, h⟩ := h
        try simp only [] at h
        rw [bind_ok_iff] at h
        obtain ⟨⟨vb, b2, s2⟩, hb, h⟩ := h
        try simp only [] at h
        simp only [Except.ok.injEq, Prod.mk.injEq] at h
        obtain ⟨rfl, rfl, rfl⟩ := h
        have dC := ihV _ _ _ _ _ hwf2.1 hc
        have dB := ihV _ _ _ _ _ hwf2.2 hb
        refine ⟨rfl, by simp [wf, dC.2.1, dB.2.1], ?_⟩
        simp only [visit]
        rw [dC.2.2, except_bind_ok]
        try simp only []
        rw [dB.2.2, except_bind_ok]
      | forStmt ini c nx b =>
        have hwf4 : wfOpt ini = true ∧ wfOpt c = true ∧ wfOpt nx = true ∧ wf b = true := by
          simpa [wf, Bool.and_eq_true, and_assoc] using hwf
        simp only [visit] at h
        rw [bind_ok_iff] at h
        obtain ⟨⟨vi, ini2, s1⟩, hi, h⟩ := h
        try simp only [] at h
        rw [bind_ok_iff] at h
        obtain ⟨⟨vc, c2, s2⟩, hc, h⟩ := h
        try simp only [] at h
        rw [bind_ok_iff] at h
        obtain ⟨⟨vn, nx2, s3⟩, hn, h⟩ := h
        try simp only [] at h
        rw [bind_ok_iff] at h
        obtain ⟨⟨vb, b2, s4⟩, hb, h⟩ := h
        try simp only [] at h
        rw [bind_ok_iff] at h
        obtain ⟨s5, hend, h⟩ := h
        try simp only [] at h
        simp only [Except.ok.injEq, Prod.mk.injEq] at h
        obtain ⟨rfl, rfl, rfl⟩ := h
        have dIni := ihO _ _ _ _ _ hwf4.1 hi
        have dC := ihO _ _ _ _ _ hwf4.2.1 hc
        have dN := ihO _ _ _ _ _ hwf4.2.2.1 hn
        have dB := ihV _ _ _ _ _ hwf4.2.2.2 hb
        refine ⟨rfl, by simp [wf, dIni.1, dC.1, dN.1, dB.2.1], ?_⟩
        simp only [visit]
        rw [dIni.2, except_bind_ok]
        try simp only []
        rw [dC.2, except_bind_ok]
        try simp only []
        rw [dN.2, except_bind_ok]
        try simp only []
        rw [dB.2.2, except_bind_ok]
        try simp only []
        rw [hend, except_bind_ok]
      | declList ds =>
        simp only [visit] at h
        rw [bind_ok_iff] at h
        obtain ⟨⟨ds2, s1⟩, he, h⟩ := h
        try simp only [] at h
        simp only [Except.ok.injEq, Prod.mk.injEq] at h
        obtain ⟨rfl, rfl, rfl⟩ := h
        have dE := ihE _ _ _ _ (by simpa [wf] using hwf) he
        refine ⟨rfl, by simpa [wf] using dE.1, ?_⟩
        simp only [visit]
        rw [dE.2, except_bind_ok]
      | emptyStatement =>
        have h0 := h
        simp only [visit] at h
        simp only [Except.ok.injEq, Prod.mk.injEq] at h
        obtain ⟨rfl, rfl, rfl⟩ := h
        exact ⟨rfl, hwf, h0⟩
      | assertStmt e =>
        simp only [visit] at h
        rw [bind_ok_iff] at h
        obtain ⟨⟨ve, e2, s1⟩, hv, h⟩ := h
        try simp only [] at h
        simp only [Except.ok.injEq, Prod.mk.injEq] at h
        obtain ⟨rfl, rfl, rfl⟩ := h
        have d := ihV _ _ _ _ _ (by simpa [wf] using hwf) hv
        refine ⟨rfl, by simp [wf, d.2.1], ?_⟩
        simp only [visit]
        rw [d.2.2, except_bind_ok]
      | printStmt e =>
        have h0 := h
        simp only [visit] at h
        cases e with
        | some en =>
          try simp only [] at h
          rw [bind_ok_iff] at h
          obtain ⟨⟨ve, e2, s1⟩, hv, h⟩ := h
          try simp only [] at h
          simp only [Except.ok.injEq, Prod.mk.injEq] at h
          obtain ⟨rfl, rfl, rfl⟩ := h
          have d := ihV _ _ _ _ _ (by simpa [wf, wfOpt] using hwf) hv
          refine ⟨rfl, by simp [wf, wfOpt, d.2.1], ?_⟩
          simp only [visit]
          try simp only []
          rw [d.2.2, except_bind_ok]
        | none =>
          simp only [Except.ok.injEq, Prod.mk.injEq] at h
          obtain ⟨rfl, rfl, rfl⟩ := h
          exact ⟨rfl, hwf, h0⟩
      | readStmt e =>
        have h0 := h
        simp only [visit] at h
        cases e with
        | some en =>
          try simp only [] at h
          rw [bind_ok_iff] at h
          obtain ⟨⟨ve, e2, s1⟩, hv, h⟩ := h
          try simp only [] at h
          simp only [Except.ok.injEq, Prod.mk.injEq] at h
          obtain ⟨rfl, rfl, rfl⟩ := h
          have d := ihV _ _ _ _ _ (by simpa [wf, wfOpt] using hwf) hv
          refine ⟨rfl, by simp [wf, wfOpt, d.2.1], ?_⟩
          simp only [visit]
          try simp only []
          rw [d.2.2, except_bind_ok]
        | none =>
          simp only [Except.ok.injEq, Prod.mk.injEq] at h
          obtain ⟨rfl, rfl, rfl⟩ := h
          exact ⟨rfl, hwf, h0⟩
      | initList es =>
        have h0 := h
        simp only [visit] at h
        cases es with
        | none =>
          simp only [Except.ok.injEq, Prod.mk.injEq] at h
          obtain ⟨rfl, rfl, rfl⟩ := h
          exact ⟨rfl, hwf, h0⟩
        | some l =>
          cases l with
          | nil => simp at h
          | cons e0 rest =>
            have hall : (isID e0 || isConstant e0) = true
                ∧ ((e0 :: rest).all fun e => isID e || isConstant e) = true := by
              have hw := hwf
              simp only [wf, List.all_cons, Bool.and_eq_true] at hw
              refine ⟨hw.1, ?_⟩
              simp only [List.all_cons, Bool.and_eq_true]
              exact hw
            try simp only [] at h
            rw [bind_ok_iff] at h
            obtain ⟨⟨consistency, e02, s1⟩, ht0, h⟩ := h
            try simp only [] at h
            have e0eq := tfioc_idconst hall.1 ht0
            obtain ⟨he0, hs0⟩ := e0eq
            simp only [] at he0 hs0
            rw [he0, hs0] at h
            rw [bind_ok_iff] at h
            obtain ⟨⟨es2, s2⟩, hloop, h⟩ := h
            try simp only [] at h
            have hs2 := ihI _ _ _ _ _ hall.2 hloop
            rw [hs2] at h
            simp only [Except.ok.injEq, Prod.mk.injEq] at h
            obtain ⟨rfl, rfl, rfl⟩ := h
            exact ⟨rfl, hwf, h0⟩
    · intro ns s ns' s' hwf h
      cases ns with
      | nil =>
        simp only [visitEach] at h
        have hinj := Except.ok.inj h
        have hn : ([] : List Node) = ns' := congrArg Prod.fst hinj
        have hs : s = s' := congrArg Prod.snd hinj
        subst hn
        subst hs
        exact ⟨rfl, rfl⟩
      | cons n rest =>
        simp only [visitEach] at h
        rw [bind_ok_iff] at h
        obtain ⟨⟨vn, n2, s1⟩, hv, h⟩ := h
        try simp only [] at h
        rw [bind_ok_iff] at h
        obtain ⟨⟨ns2, s2⟩, he, h⟩ := h
        try simp only [] at h
        simp only [Except.ok.injEq, Prod.mk.injEq] at h
        obtain ⟨rfl, rfl⟩ := h
        simp only [wfList, Bool.and_eq_true] at hwf
        have d := ihV _ _ _ _ _ hwf.1 hv
        have dE := ihE _ _ _ _ hwf.2 he
        refine ⟨by simp [wfList, d.2.1, dE.1], ?_⟩
        simp only [visitEach]
        rw [d.2.2, except_bind_ok]
        try simp only []
        rw [dE.2, except_bind_ok]
    · intro o s v o' s' hwf h
      cases o with
      | none => simp [visitOpt] at h
      | some n =>
        simp only [visitOpt] at h
        rw [bind_ok_iff] at h
        obtain ⟨⟨vn, n2, s1⟩, hv, h⟩ := h
        try simp only [] at h
        simp only [Except.ok.injEq, Prod.mk.injEq] at h
        obtain ⟨rfl, rfl, rfl⟩ := h
        have d := ihV _ _ _ _ _ (by simpa [wfOpt] using hwf) hv
        refine ⟨by simpa [wfOpt] using d.2.1, ?_⟩
        simp only [visitOpt]
        rw [d.2.2, except_bind_ok]
    · intro m look s v look' s' hwf h
      have h0 := h
      by_cases hid : isID look = true
      · cases look <;> simp [isID] at hid
        rename_i nm
        simp only [typeFromIdOrConst] at h
        split at h
        · rename_i lt hlkOK
          split at h
          · rename_i htr
            simp only [Except.ok.injEq, Prod.mk.injEq] at h
            obtain ⟨rfl, rfl, rfl⟩ := h
            exact ⟨rfl, by simp [wf], h0⟩
          · simp at h
        · simp at h
      · by_cases hco : isConstant look = true
        · cases look <;> simp [isConstant] at hco
          rename_i ty cv
          simp only [typeFromIdOrConst] at h
          simp only [Except.ok.injEq, Prod.mk.injEq] at h
          obtain ⟨rfl, rfl, rfl⟩ := h
          exact ⟨rfl, by simp [wf], h0⟩
        · rw [tfioc_eq_visit m fuel look s (by simpa using hid) (by simpa using hco)] at h
          have d := ihV _ _ _ _ _ hwf h
          have hid3 : isID look' = false := by
            rw [kind_isID d.1]
            simpa using hid
          have hco3 : isConstant look' = false := by
            rw [kind_isConstant d.1]
            simpa using hco
          refine ⟨d.1, d.2.1, ?_⟩
          rw [tfioc_eq_visit m fuel look' s hid3 hco3]
          exact d.2.2
    · intro c es s es' s' hwf h
      cases es with
      | nil =>
        simp only [initLoop] at h
        exact (congrArg Prod.fst (Except.ok.inj h)).symm
      | cons e rest =>
        simp only [List.all_cons, Bool.and_eq_true] at hwf
        simp only [initLoop] at h
        rw [bind_ok_iff] at h
        obtain ⟨⟨verify, e2, s1⟩, ht, h⟩ := h
        try simp only [] at h
        have hx := tfioc_idconst hwf.1 ht
        have he2 : e2 = e := by simpa using hx.1
        split at h
        · rw [bind_ok_iff] at h
          obtain ⟨⟨es2, s2⟩, hloop, h⟩ := h
          try simp only [] at h
          simp only [Except.ok.injEq, Prod.mk.injEq] at h
          obtain ⟨rfl, rfl⟩ := h
          have hrest := ihI _ _ _ _ _ hwf.2 hloop
          rw [hrest, he2]
        · simp at h

/-- C8 (counterexample): the checker does mutate the AST — visiting the cast
`(float) 2` rewrites the Cast node's type child from the `Type(float)` node
to the operand's type string `"int"`, so the tree the second run observes is
not the tree the first run received. -/
theorem c8_counterexample :
    ∃ s', visit 3 (Node.cast (Option.some (Node.typeNode (Option.some ["float"])))
        Option.none (Node.constant "int" "2")) initialState
      = Except.ok (PyVal.none,
          Node.cast Option.none (Option.some "int") (Node.constant "int" "2"), s')
    ∧ Node.cast Option.none (Option.some "int") (Node.constant "int" "2")
      ≠ Node.cast (Option.some (Node.typeNode (Option.some ["float"])))
          Option.none (Node.constant "int" "2") :=
  ⟨_, rfl, by simp⟩

/-- C8 (amended): re-checking the tree returned by a successful check of a
well-formed tree, from the same start state, succeeds with identical results
(same value, same tree, same final state): the Cast mutation is the only one
and it reaches a fixed point after the first visit. -/
theorem c8_amended : ∀ fuel t s v t' s',
    wf t = true → visit fuel t s = Except.ok (v, t', s') →
    visit fuel t' s = Except.ok (v, t', s') ∧ wf t' = true :=
  fun fuel t s v t' s' hw h =>
    ⟨((idemInvariant fuel).1 t s v t' s' hw h).2.2,
     ((idemInvariant fuel).1 t s v t' s' hw h).2.1⟩

theorem c8_amended_witness :
    wf (Node.cast (Option.some (Node.typeNode (Option.some ["float"]))) Option.none
        (Node.constant "int" "2")) = true
    ∧ visit 3 (Node.cast Option.none (Option.some "int") (Node.constant "int" "2"))
        initialState
      = Except.ok (PyVal.none,
          Node.cast Option.none (Option.some "int") (Node.constant "int" "2"), initialState) :=
  ⟨rfl,
   (c8_amended 3
     (Node.cast (Option.some (Node.typeNode (Option.some ["float"]))) Option.none
       (Node.constant "int" "2"))
     initialState PyVal.none
     (Node.cast Option.none (Option.some "int") (Node.constant "int" "2"))
     initialState rfl rfl).1⟩

end ucc
